import Mathlib

/-!
Verification of the redis-langcachy processing pipeline and its
cache-consistency model, as a shallow embedding of the TypeScript source.

Modelling conventions, applied uniformly:
* The Redis keyspace is an explicit `Store` of association lists, one per
  logical key class (`url:{hash}`, `urls:{domain}`, `content:{hash}`,
  `prompt:{hash}`, `response:{hash}`, `sitemap:{domain}`, `status:{domain}`),
  matching `RedisKeys` in the source.  Every operation threads the store
  explicitly; asynchronous I/O is sequentialised in program order (a single
  logical worker, as the pipeline runs its stages).
* `Date.now()` / `new Date().toISOString()` are modelled by an explicit
  monotone clock `now : Nat` passed to each operation that reads the clock;
  `isoTime` is its injective rendering as a string.
* `hashUrl` wraps the Node `crypto` SHA-256 digest, an external library; it
  is modelled as a function parameter `h : String → String`.  Theorems that
  need distinct keys for distinct URLs assume exactly that, nothing more.
* URL parsing (`new URL`), `extractDomain` and `generatePageName` depend on
  the platform URL library and are likewise passed as parameters; no claim
  depends on their output values.
* Network fetches, the XML parser, Turndown and the strategy internals
  (`scrapeWithJina`, `scrapeWithBrowser`) are external collaborators and are
  modelled as oracles (function parameters); the control flow around them —
  the strategy chain, retry loop, cache checks, recursion — is translated
  from the source line by line.
* TypeScript truthiness tests on strings (`if (error)`, `result.markdown`,
  `cachedPrompt`, `lastError?.message || ...`) are modelled by the
  corresponding `≠ ""` tests on `Option String` contents.
* Key expirations (TTLs) are real-time behaviour outside the model; no claim
  mentions expiry.
-/

set_option autoImplicit false

namespace LangCachy

/-! ## Association-list keyspace primitives -/

def getA {α : Type} (l : List (String × α)) (k : String) : Option α :=
  match l with
  | [] => none
  | (k', v) :: rest => if k' = k then some v else getA rest k

def setA {α : Type} (l : List (String × α)) (k : String) (v : α) :
    List (String × α) :=
  match l with
  | [] => [(k, v)]
  | (k', v') :: rest => if k' = k then (k, v) :: rest else (k', v') :: setA rest k v

def delA {α : Type} (l : List (String × α)) (k : String) : List (String × α) :=
  match l with
  | [] => []
  | (k', v') :: rest => if k' = k then delA rest k else (k', v') :: delA rest k

/-! ## Sorted-set (ZSET) model

A Redis sorted set is a list of `(member, score)` pairs with unique members.
`zAddList` mirrors plain `ZADD`: an existing member has its score updated
(not preserved), a new member is appended.  Range reads sort by
`(score, member)` ascending, as Redis does. -/

def zAddList (l : List (String × Nat)) (member : String) (score : Nat) :
    List (String × Nat) :=
  if l.any (fun p => p.1 = member) then
    l.map (fun p => if p.1 = member then (p.1, score) else p)
  else l ++ [(member, score)]

def zleb (a b : String × Nat) : Bool :=
  decide (a.2 < b.2) || (decide (a.2 = b.2) && decide (a.1 < b.1))

def zInsert (x : String × Nat) : List (String × Nat) → List (String × Nat)
  | [] => [x]
  | y :: ys => if zleb x y then x :: y :: ys else y :: zInsert x ys

def zSort : List (String × Nat) → List (String × Nat)
  | [] => []
  | x :: xs => zInsert x (zSort xs)

def zRangeList (l : List (String × Nat)) (offset count : Nat) : List String :=
  (((zSort l).drop offset).take count).map (fun p => p.1)

def zCardList (l : List (String × Nat)) : Nat := l.length

def zScoreList (l : List (String × Nat)) (member : String) : Option Nat :=
  (l.find? (fun p => p.1 = member)).map (fun p => p.2)

/-! ## Data model (lib/redis.ts type declarations) -/

structure SitemapUrl where
  loc : String
  lastmod : Option String
  changefreq : Option String
  /-- kept as the raw sitemap string; `Number.parseFloat` is external and no
  claim inspects the numeric value -/
  priority : Option String
  deriving DecidableEq

structure ParsedSitemap where
  urls : List SitemapUrl
  /-- `undefined` is identified with the empty list, matching the
  `sitemapIndexUrls && sitemapIndexUrls.length > 0` truthiness test -/
  sitemapIndexUrls : List String
  deriving DecidableEq

structure UrlRecord where
  url : String
  urlHash : String
  domain : String
  pageName : String
  priority : Option String
  lastmod : Option String
  changefreq : Option String
  indexed : String
  processed : Bool
  error : Option String
  deriving DecidableEq

structure PageContent where
  url : String
  pageName : String
  markdown : String
  fetchedAt : String
  contentLength : Nat
  deriving DecidableEq

structure PromptCacheEntry where
  prompt : String
  cachedAt : String
  deriving DecidableEq

structure ResponseCacheEntry where
  prompt : String
  response : String
  cachedAt : String
  deriving DecidableEq

inductive MetaStatus where
  | pending | processing | completed | failed
  deriving DecidableEq

structure SitemapMetadata where
  domain : String
  sitemapUrl : String
  totalUrls : Nat
  processedUrls : Nat
  lastProcessed : String
  status : MetaStatus
  deriving DecidableEq

inductive ProcStatus where
  | idle | parsing | indexing | scraping | completed | error
  deriving DecidableEq

structure Progress where
  total : Nat
  completed : Nat
  failed : Nat
  deriving DecidableEq

structure ProcessingStatus where
  domain : String
  status : ProcStatus
  currentUrl : Option String
  progress : Progress
  startedAt : Option String
  completedAt : Option String
  error : Option String
  deriving DecidableEq

structure Store where
  kvUrls : List (String × UrlRecord)
  kvLists : List (String × List (String × Nat))
  kvContents : List (String × PageContent)
  kvPrompts : List (String × PromptCacheEntry)
  kvResponses : List (String × ResponseCacheEntry)
  kvSitemaps : List (String × SitemapMetadata)
  kvStatuses : List (String × ProcessingStatus)
  deriving DecidableEq

def emptyStore : Store := ⟨[], [], [], [], [], [], []⟩

/-- Injective rendering of the model clock, standing in for
`new Date().toISOString()`. -/
def isoTime (now : Nat) : String := "t" ++ toString now

namespace RedisKeys

def url (urlHash : String) : String := "url:" ++ urlHash

def urlList (domain : String) : String := "urls:" ++ domain

def sitemap (domain : String) : String := "sitemap:" ++ domain

def status (domain : String) : String := "status:" ++ domain

def content (urlHash : String) : String := "content:" ++ urlHash

def promptCache (urlHash : String) : String := "prompt:" ++ urlHash

def responseCache (urlHash : String) : String := "response:" ++ urlHash

end RedisKeys

/-! ## RedisService (redis-service.ts) -/

def storeSitemapMetadata (meta : SitemapMetadata) (s : Store) : Store :=
  { s with kvSitemaps := setA s.kvSitemaps (RedisKeys.sitemap meta.domain) meta }

/-- `indexUrl`: `SET url:{hash}` then `ZADD urls:{domain} {score: Date.now(),
value: hash}`. -/
def indexUrl (now : Nat) (rec : UrlRecord) (s : Store) : Store :=
  let s1 : Store :=
    { s with kvUrls := setA s.kvUrls (RedisKeys.url rec.urlHash) rec }
  let old := (getA s1.kvLists (RedisKeys.urlList rec.domain)).getD []
  { s1 with
    kvLists := setA s1.kvLists (RedisKeys.urlList rec.domain)
      (zAddList old rec.urlHash now) }

def getUrlRecord (s : Store) (urlHash : String) : Option UrlRecord :=
  getA s.kvUrls (RedisKeys.url urlHash)

def getUrlsByDomain (s : Store) (domain : String) (limit : Nat)
    (offset : Nat) : List UrlRecord :=
  let zl := (getA s.kvLists (RedisKeys.urlList domain)).getD []
  let hashes := zRangeList zl offset limit
  (hashes.map (fun hsh => getUrlRecord s hsh)).filterMap id

def storePageContent (urlHash : String) (content : PageContent) (s : Store) :
    Store :=
  { s with kvContents := setA s.kvContents (RedisKeys.content urlHash) content }

def getPageContent (s : Store) (urlHash : String) : Option PageContent :=
  getA s.kvContents (RedisKeys.content urlHash)

/-- `markUrlProcessed`: silently no-ops when the record is absent; sets
`processed`; `if (error) urlRecord.error = error` only fires on a truthy
(non-empty) string. -/
def markUrlProcessed (urlHash : String) (success : Bool)
    (error : Option String) (s : Store) : Store :=
  match getUrlRecord s urlHash with
  | none => s
  | some rec =>
    let rec1 := { rec with processed := success }
    let rec2 :=
      match error with
      | some e => if e = "" then rec1 else { rec1 with error := some e }
      | none => rec1
    { s with kvUrls := setA s.kvUrls (RedisKeys.url urlHash) rec2 }

def updateProcessingStatus (st : ProcessingStatus) (s : Store) : Store :=
  { s with kvStatuses := setA s.kvStatuses (RedisKeys.status st.domain) st }

def getProcessingStatus (s : Store) (domain : String) :
    Option ProcessingStatus :=
  getA s.kvStatuses (RedisKeys.status domain)

def getUrlCount (s : Store) (domain : String) : Nat :=
  zCardList ((getA s.kvLists (RedisKeys.urlList domain)).getD [])

def storePromptCache (urlHash : String) (prompt : String) (now : Nat)
    (s : Store) : Store :=
  { s with
    kvPrompts := setA s.kvPrompts (RedisKeys.promptCache urlHash)
      { prompt := prompt, cachedAt := isoTime now } }

def getPromptCache (s : Store) (urlHash : String) : Option PromptCacheEntry :=
  getA s.kvPrompts (RedisKeys.promptCache urlHash)

def storeResponseCache (urlHash : String) (entry : ResponseCacheEntry)
    (s : Store) : Store :=
  { s with
    kvResponses := setA s.kvResponses (RedisKeys.responseCache urlHash) entry }

def getResponseCache (s : Store) (urlHash : String) :
    Option ResponseCacheEntry :=
  getA s.kvResponses (RedisKeys.responseCache urlHash)

def deletePromptCache (urlHash : String) (s : Store) : Store :=
  { s with kvPrompts := delA s.kvPrompts (RedisKeys.promptCache urlHash) }

def deleteResponseCache (urlHash : String) (s : Store) : Store :=
  { s with kvResponses := delA s.kvResponses (RedisKeys.responseCache urlHash) }

/-! ## LangCacheService (langcache-service.ts)

`hashUrl` (SHA-256, Node `crypto`) is the parameter `h` throughout. -/

/-- One escaped character of `JSON.stringify` output (quote, backslash and
the common control characters; other characters pass through). -/
def jsonEscapeChar (c : Char) : List Char :=
  if c = '"' then ['\\', '"']
  else if c = '\\' then ['\\', '\\']
  else if c = '\n' then ['\\', 'n']
  else if c = '\r' then ['\\', 'r']
  else if c = '\t' then ['\\', 't']
  else [c]

def jsonEscape (s : String) : String :=
  String.mk (s.data.foldr (fun c acc => jsonEscapeChar c ++ acc) [])

/-- `JSON.stringify(promptData.pageData, null, 2)` for
`pageData = \x7b url, content \x7d`. -/
def jsonPageData (url content : String) : String :=
  "\x7b\n  \"url\": \"" ++ jsonEscape url ++ "\",\n  \"content\": \"" ++
    jsonEscape content ++ "\"\n\x7d"

def generatePrompt (pageContent : PageContent) : String :=
  "Page Analysis Request\n\nPage Name: " ++ pageContent.pageName ++
    "\n\nPage Data:\n" ++ jsonPageData pageContent.url pageContent.markdown ++
    "\n\nPlease analyze this page content and provide insights about:\n" ++
    "1. Main topics and themes\n2. Key information and takeaways\n" ++
    "3. Content structure and organization\n4. Potential use cases or applications"

def cachePrompt (h : String → String) (now : Nat) (url prompt : String)
    (s : Store) : Store :=
  storePromptCache (h url) prompt now s

def getCachedPrompt (h : String → String) (url : String) (s : Store) :
    Option String :=
  (getPromptCache s (h url)).map (fun e => e.prompt)

def cacheResponse (h : String → String) (now : Nat)
    (url prompt response : String) (s : Store) : Store :=
  storeResponseCache (h url)
    { prompt := prompt, response := response, cachedAt := isoTime now } s

structure CachedResponse where
  prompt : String
  response : String
  cachedAt : String
  fromCache : Bool
  deriving DecidableEq

def getCachedResponse (h : String → String) (url : String) (s : Store) :
    Option CachedResponse :=
  (getResponseCache s (h url)).map fun e =>
    { prompt := e.prompt, response := e.response, cachedAt := e.cachedAt,
      fromCache := true }

structure ProcessPageOut where
  success : Bool
  prompt : Option String
  cached : Option Bool
  error : Option String
  deriving DecidableEq

/-- `processPage`: content must exist; a cached prompt is used only when
truthy (non-empty); otherwise a prompt is generated and cached. -/
def processPage (h : String → String) (now : Nat) (url : String) (s : Store) :
    ProcessPageOut × Store :=
  match getPageContent s (h url) with
  | none =>
    ({ success := false, prompt := none, cached := none,
       error := some "Page content not found in cache" }, s)
  | some pageContent =>
    match getCachedPrompt h url s with
    | some p =>
      if p = "" then
        let prompt := generatePrompt pageContent
        ({ success := true, prompt := some prompt, cached := some false,
           error := none }, cachePrompt h now url prompt s)
      else
        ({ success := true, prompt := some p, cached := some true,
           error := none }, s)
    | none =>
      let prompt := generatePrompt pageContent
      ({ success := true, prompt := some prompt, cached := some false,
         error := none }, cachePrompt h now url prompt s)

structure AIOut where
  success : Bool
  response : Option String
  fromCache : Option Bool
  error : Option String
  deriving DecidableEq

/-- `processResult.error || "Failed to generate prompt"` (empty string is
falsy). -/
def promptFailMsg (e : Option String) : String :=
  match e with
  | some m => if m = "" then "Failed to generate prompt" else m
  | none => "Failed to generate prompt"

/-- `processWithAI`: cached response short-circuits; otherwise the prompt is
obtained via `processPage`, the injected completion function is invoked once
and the `(prompt, response)` pair is persisted.  The third component counts
invocations of the completion function. -/
def processWithAI (h : String → String) (ai : String → String) (now : Nat)
    (url : String) (s : Store) : AIOut × Store × Nat :=
  match getCachedResponse h url s with
  | some cr =>
    ({ success := true, response := some cr.response, fromCache := some true,
       error := none }, s, 0)
  | none =>
    let (pr, s1) := processPage h now url s
    match pr.prompt with
    | none =>
      ({ success := false, response := none, fromCache := none,
         error := some (promptFailMsg pr.error) }, s1, 0)
    | some p =>
      if pr.success = false ∨ p = "" then
        ({ success := false, response := none, fromCache := none,
           error := some (promptFailMsg pr.error) }, s1, 0)
      else
        let response := ai p
        ({ success := true, response := some response,
           fromCache := some false, error := none },
          cacheResponse h now url p response s1, 1)

def clearCache (h : String → String) (url : String) (s : Store) : Store :=
  deleteResponseCache (h url) (deletePromptCache (h url) s)

/-! ## PageScraper (page-scraper.ts, multi-strategy variant)

The three retrieval strategies wrap network calls; `scrapeWithJina` and
`scrapeWithBrowser` are oracles producing a complete `ScrapingResult` (as
those functions do in the source), and one direct-fetch attempt is an oracle
producing either a converted page (title and markdown, the output of
`htmlToMarkdown` on the fetched body) or a thrown error's message.  The
chain, the retry loop and the backoff schedule are translated from
`scrapePage`; the event trace records strategy invocations and sleeps. -/

inductive Method where
  | jina | browser | fetch
  deriving DecidableEq

structure ScrapingResult where
  success : Bool
  url : String
  pageName : String
  markdown : Option String
  contentLength : Option Nat
  error : Option String
  method : Option Method
  deriving DecidableEq

inductive Ev where
  | jina
  | browser
  | fetchAttempt (attempt : Nat)
  | sleep (ms : Nat)
  deriving DecidableEq

/-- Successful direct-fetch attempt: `(pageName, markdown)` from
`htmlToMarkdown`. -/
def mkFetchOk (url pageName markdown : String) : ScrapingResult :=
  { success := true, url := url, pageName := pageName,
    markdown := some markdown, contentLength := some markdown.length,
    error := none, method := some Method.fetch }

/-- Final failure: `lastError?.message || "All scraping methods failed"`
(absent or empty message falls back to the fixed string). -/
def mkFetchFail (url : String) (lastError : Option String) : ScrapingResult :=
  { success := false, url := url, pageName := "Unknown", markdown := none,
    contentLength := none,
    error := some (match lastError with
      | some m => if m = "" then "All scraping methods failed" else m
      | none => "All scraping methods failed"),
    method := some Method.fetch }

/-- The `for (let attempt = 0; attempt < retries; attempt++)` loop of
`scrapePage`, structurally recursive on the remaining attempt count
(`rem = retries - attempt`).  A failed attempt that is not the last sleeps
`1000 * 2 ^ attempt` before the next one. -/
def fetchLoop (fetchTry : Nat → Except String (String × String))
    (url : String) (retries : Nat) :
    Nat → Nat → Option String → ScrapingResult × List Ev
  | 0, _, lastError => (mkFetchFail url lastError, [])
  | rem + 1, attempt, _ =>
    match fetchTry attempt with
    | Except.ok pr => (mkFetchOk url pr.1 pr.2, [Ev.fetchAttempt attempt])
    | Except.error msg =>
      let evs : List Ev :=
        if attempt < retries - 1 then
          [Ev.fetchAttempt attempt, Ev.sleep (1000 * 2 ^ attempt)]
        else [Ev.fetchAttempt attempt]
      let rest := fetchLoop fetchTry url retries rem (attempt + 1) (some msg)
      (rest.1, evs ++ rest.2)

/-- `scrapePage` (lines 396-496): Jina first when enabled, then the browser
when enabled, then the mandatory direct-fetch fallback with retries. -/
def scrapePage (jinaRes browserRes : ScrapingResult)
    (fetchTry : Nat → Except String (String × String))
    (useJinaReader useBrowser : Bool) (retries : Nat) (url : String) :
    ScrapingResult × List Ev :=
  let fetchPart : List Ev → ScrapingResult × List Ev := fun pre =>
    let r := fetchLoop fetchTry url retries retries 0 none
    (r.1, pre ++ r.2)
  let browserPart : List Ev → ScrapingResult × List Ev := fun pre =>
    if useBrowser then
      if browserRes.success then (browserRes, pre ++ [Ev.browser])
      else fetchPart (pre ++ [Ev.browser])
    else fetchPart pre
  if useJinaReader then
    if jinaRes.success then (jinaRes, [Ev.jina])
    else browserPart [Ev.jina]
  else browserPart []

/-! ### Whitespace normalisation of `htmlToMarkdown` (lines 501-555)

Turndown and JSDOM are external; the cleanup applied to their output —
`markdown.replace(/\n\x7b3,\x7d/g, "\n\n").trim()` and the optional metadata
header — is modelled exactly, on character lists. -/

def emitNL (pending : Nat) : List Char :=
  List.replicate (if 3 ≤ pending then 2 else pending) '\n'

/-- Scan with a count of pending newline characters; a maximal run of three
or more is emitted as exactly two, matching the global regex replace. -/
def collapseNLAux (pending : Nat) : List Char → List Char
  | [] => emitNL pending
  | c :: cs =>
    if c = '\n' then collapseNLAux (pending + 1) cs
    else emitNL pending ++ (c :: collapseNLAux 0 cs)

def collapseNL (l : List Char) : List Char := collapseNLAux 0 l

def isJsWS (c : Char) : Bool := c.isWhitespace

/-- `String.prototype.trim`. -/
def trimChars (l : List Char) : List Char :=
  ((l.dropWhile isJsWS).reverse.dropWhile isJsWS).reverse

/-- Cleanup tail of `htmlToMarkdown`: optional metadata header, then the
whitespace law, then trim.  `turndownOut` is the Turndown conversion of the
selected content region; `metaSection` is `formatMetadata`'s output. -/
def htmlToMarkdownClean (turndownOut metaSection : List Char)
    (includeMetadata : Bool) : List Char :=
  let md :=
    if includeMetadata then metaSection ++ ('\n' :: '\n' :: turndownOut)
    else turndownOut
  trimChars (collapseNL md)

/-! ### scrapeAndCache and scrapeMultiple (lines 601-676)

`scrapeRes` is the outcome of the inner `scrapePage` call for this
invocation; the third component counts how many times the scraping chain was
invoked (0 on a cache hit).  `langCacheService.indexPageContent` only talks
to the remote semantic index (and swallows its own errors), so it does not
touch the store. -/

def scrapeAndCache (h : String → String) (scrapeRes : ScrapingResult)
    (now : Nat) (url : String) (s : Store) : ScrapingResult × Store × Nat :=
  match getPageContent s (h url) with
  | some cached =>
    ({ success := true, url := cached.url, pageName := cached.pageName,
       markdown := some cached.markdown,
       contentLength := some cached.contentLength, error := none,
       method := none }, s, 0)
  | none =>
    let result := scrapeRes
    let s' :=
      match result.markdown with
      | some m =>
        if result.success && !(m = "") then
          storePageContent (h url)
            { url := url, pageName := result.pageName, markdown := m,
              fetchedAt := isoTime now,
              contentLength := result.contentLength.getD 0 } s
        else s
      | none => s
    (result, s', 1)

structure ScrapeSummary where
  success : Nat
  failed : Nat
  deriving DecidableEq

/-- `scrapeMultiple`: sequential scrape-and-cache over the URL list, marking
each record processed; rate-limit sleeps are real time outside the model. -/
def scrapeMultiple (h : String → String)
    (scrapeOracle : String → ScrapingResult) (now : Nat) :
    List String → Store → List ScrapingResult × ScrapeSummary × Store
  | [], s => ([], { success := 0, failed := 0 }, s)
  | url :: urls, s =>
    let (result, s1, _) := scrapeAndCache h (scrapeOracle url) now url s
    let s2 := markUrlProcessed (h url) result.success result.error s1
    let (results, summary, s3) := scrapeMultiple h scrapeOracle now urls s2
    (result :: results,
      if result.success then
        { summary with success := summary.success + 1 }
      else { summary with failed := summary.failed + 1 }, s3)

/-! ## SitemapParser.parseRecursive (sitemap-parser.ts, lines 112-137)

`parseSitemap` (fetch + XML parse) is the oracle `fetch`: it yields the
`ParsedSitemap` or the message of the error it throws.  `parseRecursive`
recurses on `maxDepth - currentDepth`, which strictly decreases; the guard
`currentDepth >= maxDepth` is exactly `fuel = 0`.  A child failure — any
failure, including the depth guard firing inside the child — is caught,
logged and skipped. -/

def parseRecursiveAux (fetch : String → Except String ParsedSitemap) :
    Nat → String → Except String (List SitemapUrl)
  | 0, _ => Except.error "Maximum sitemap depth reached"
  | fuel + 1, url =>
    match fetch url with
    | Except.error e => Except.error e
    | Except.ok parsed =>
      if parsed.sitemapIndexUrls.isEmpty then Except.ok parsed.urls
      else
        Except.ok
          ((parsed.sitemapIndexUrls.map fun child =>
            match parseRecursiveAux fetch fuel child with
            | Except.ok childUrls => childUrls
            | Except.error _ => []).flatten)

def parseRecursive (fetch : String → Except String ParsedSitemap)
    (sitemapUrl : String) (maxDepth currentDepth : Nat) :
    Except String (List SitemapUrl) :=
  parseRecursiveAux fetch (maxDepth - currentDepth) sitemapUrl

/-! ## UrlIndexer (url-indexer.ts) -/

structure IndexingResult where
  success : Bool
  domain : String
  totalUrls : Nat
  indexedUrls : Nat
  skippedUrls : Nat
  errors : List String
  deriving DecidableEq

structure IndexAcc where
  store : Store
  now : Nat
  indexedUrls : Nat
  skippedUrls : Nat
  deriving DecidableEq

/-- One URL of a batch (the `batch.map(async ...)` body): skip when
`skipExisting` finds a record, else build the `UrlRecord` and `indexUrl` it.
`indexUrl` cannot fail in the model, so the per-URL catch never fires. -/
def indexOneUrl (h pageNameOf : String → String) (domain : String)
    (skipExisting : Bool) (u : SitemapUrl) (acc : IndexAcc) : IndexAcc :=
  let urlHash := h u.loc
  if skipExisting && (getUrlRecord acc.store urlHash).isSome then
    { acc with skippedUrls := acc.skippedUrls + 1 }
  else
    let record : UrlRecord :=
      { url := u.loc, urlHash := urlHash, domain := domain,
        pageName := pageNameOf u.loc, priority := u.priority,
        lastmod := u.lastmod, changefreq := u.changefreq,
        indexed := isoTime acc.now, processed := false, error := none }
    { store := indexUrl acc.now record acc.store, now := acc.now + 1,
      indexedUrls := acc.indexedUrls + 1, skippedUrls := acc.skippedUrls }

def indexBatchUrls (h pageNameOf : String → String) (domain : String)
    (skipExisting : Bool) : List SitemapUrl → IndexAcc → IndexAcc
  | [], acc => acc
  | u :: us, acc =>
    indexBatchUrls h pageNameOf domain skipExisting us
      (indexOneUrl h pageNameOf domain skipExisting u acc)

/-- `for (let i = 0; i < urlsToIndex.length; i += batchSize)`, realised as a
fuel-bounded chunking (the fuel is the list length, so it never runs out for
`batchSize ≥ 1`). -/
def chunkList {α : Type} (batchSize : Nat) : Nat → List α → List (List α)
  | 0, _ => []
  | _, [] => []
  | fuel + 1, l@(_ :: _) =>
    l.take batchSize :: chunkList batchSize fuel (l.drop batchSize)

def indexBatches (h pageNameOf : String → String) (domain : String)
    (skipExisting : Bool) (totalUrls : Nat) (startedAt : String) :
    List (List SitemapUrl) → IndexAcc → IndexAcc
  | [], acc => acc
  | batch :: batches, acc =>
    let acc1 := indexBatchUrls h pageNameOf domain skipExisting batch acc
    let acc2 : IndexAcc :=
      { acc1 with
        store := updateProcessingStatus
          { domain := domain, status := ProcStatus.indexing,
            currentUrl := none,
            progress :=
              { total := totalUrls,
                completed := acc1.indexedUrls + acc1.skippedUrls,
                failed := 0 },
            startedAt := some startedAt, completedAt := none,
            error := none } acc1.store }
    indexBatches h pageNameOf domain skipExisting totalUrls startedAt
      batches acc2

/-- `UrlIndexer.indexSitemap` (lines 210-353).  `extractDomainF` stands for
`extractDomain` (platform URL parsing); batch upserts are sequentialised in
list order (each `Promise.all` batch barrier-synchronises before the next,
and distinct URLs touch distinct keys whenever the hash separates them).
The model's clock starts at `now0` and ticks once per indexed URL. -/
def indexSitemap (fetch : String → Except String ParsedSitemap)
    (h pageNameOf extractDomainF : String → String) (maxUrls : Nat)
    (skipExisting : Bool) (batchSize : Nat) (now0 : Nat)
    (sitemapUrl : String) (s : Store) : IndexingResult × Store :=
  let domain := extractDomainF sitemapUrl
  let s := updateProcessingStatus
    { domain := domain, status := ProcStatus.parsing, currentUrl := none,
      progress := { total := 0, completed := 0, failed := 0 },
      startedAt := some (isoTime now0), completedAt := none,
      error := none } s
  match parseRecursive fetch sitemapUrl 3 0 with
  | Except.error e =>
    let errorMessage := e
    let s := updateProcessingStatus
      { domain := domain, status := ProcStatus.error, currentUrl := none,
        progress := { total := 0, completed := 0, failed := 1 },
        startedAt := none, completedAt := none,
        error := some errorMessage } s
    ({ success := false, domain := domain, totalUrls := 0, indexedUrls := 0,
       skippedUrls := 0, errors := [errorMessage] }, s)
  | Except.ok urls =>
    let totalUrls := min urls.length maxUrls
    let meta : SitemapMetadata :=
      { domain := domain, sitemapUrl := sitemapUrl, totalUrls := totalUrls,
        processedUrls := 0, lastProcessed := isoTime now0,
        status := MetaStatus.processing }
    let s := storeSitemapMetadata meta s
    let s := updateProcessingStatus
      { domain := domain, status := ProcStatus.indexing, currentUrl := none,
        progress := { total := totalUrls, completed := 0, failed := 0 },
        startedAt := some (isoTime now0), completedAt := none,
        error := none } s
    let urlsToIndex := urls.take maxUrls
    let chunks := chunkList batchSize urlsToIndex.length urlsToIndex
    let acc := indexBatches h pageNameOf domain skipExisting totalUrls
      (isoTime now0) chunks
      { store := s, now := now0, indexedUrls := 0, skippedUrls := 0 }
    let s := storeSitemapMetadata
      { meta with status := MetaStatus.completed,
                  processedUrls := acc.indexedUrls } acc.store
    let s := updateProcessingStatus
      { domain := domain, status := ProcStatus.completed, currentUrl := none,
        progress :=
          { total := totalUrls,
            completed := acc.indexedUrls + acc.skippedUrls, failed := 0 },
        startedAt := some (isoTime now0),
        completedAt := some (isoTime (acc.now + 1)), error := none } s
    ({ success := true, domain := domain, totalUrls := totalUrls,
       indexedUrls := acc.indexedUrls, skippedUrls := acc.skippedUrls,
       errors := [] }, s)

/-- `SitemapParser.getCommonSitemapUrls`, with the origin computed by the
platform URL library passed in. -/
def getCommonSitemapUrls (origin : String) : List String :=
  [origin ++ "/sitemap.xml", origin ++ "/sitemap_index.xml",
   origin ++ "/sitemap-index.xml", origin ++ "/sitemap1.xml",
   origin ++ "/robots.txt"]

/-- The `for (const url of commonUrls)` loop of `autoDiscoverAndIndex`:
skip URLs failing validation, return the first successfully indexed result.
`indexSitemap` catches its own errors, so the surrounding `catch` is dead. -/
def tryCommonUrls (idx : String → IndexingResult)
    (validate : String → Bool) (extractedDomain : String) :
    List String → IndexingResult
  | [] =>
    { success := false, domain := extractedDomain, totalUrls := 0,
      indexedUrls := 0, skippedUrls := 0,
      errors := ["Could not find or parse sitemap"] }
  | u :: us =>
    if validate u then
      let result := idx u
      if result.success then result
      else tryCommonUrls idx validate extractedDomain us
    else tryCommonUrls idx validate extractedDomain us

/-- `UrlIndexer.autoDiscoverAndIndex` (lines 358-391).  `robotsSitemaps` is
the list returned by `findSitemapInRobots`; `idx` is `this.indexSitemap`
applied to the ambient options; `validate` is
`SitemapParser.validateSitemapUrl(...).valid` (URL-library dependent). -/
def autoDiscoverAndIndex (robotsSitemaps : List String)
    (idx : String → IndexingResult) (validate : String → Bool)
    (origin extractedDomain : String) : IndexingResult :=
  match robotsSitemaps with
  | first :: _ => idx first
  | [] => tryCommonUrls idx validate extractedDomain (getCommonSitemapUrls origin)

/-! ## AIProcessor (ai-processor.ts)

`generateText` is the injected completion backend `ai`; wall-clock
`processingTime` is real time and not modelled. -/

structure AIProcResult where
  url : String
  success : Bool
  response : Option String
  fromCache : Option Bool
  error : Option String
  deriving DecidableEq

def processUrl (h : String → String) (ai : String → String) (now : Nat)
    (url : String) (s : Store) : AIProcResult × Store :=
  let (result, s1, _) := processWithAI h ai now url s
  ({ url := url, success := result.success, response := result.response,
     fromCache := result.fromCache, error := result.error }, s1)

structure AISummary where
  total : Nat
  successful : Nat
  failed : Nat
  cached : Nat
  deriving DecidableEq

structure AIAcc where
  store : Store
  successful : Nat
  failed : Nat
  cached : Nat
  deriving DecidableEq

def processDomainLoop (h : String → String) (ai : String → String)
    (now : Nat) (domain : String) (total : Nat) :
    List UrlRecord → Nat → AIAcc → List AIProcResult × AIAcc
  | [], _, acc => ([], acc)
  | urlRecord :: rest, i, acc =>
    let (result, s1) := processUrl h ai now urlRecord.url acc.store
    let acc1 : AIAcc :=
      if result.success then
        if result.fromCache = some true then
          { acc with store := s1, successful := acc.successful + 1,
                     cached := acc.cached + 1 }
        else { acc with store := s1, successful := acc.successful + 1 }
      else { acc with store := s1, failed := acc.failed + 1 }
    let s2 := updateProcessingStatus
      { domain := domain, status := ProcStatus.scraping,
        currentUrl := some urlRecord.url,
        progress := { total := total, completed := i + 1,
                      failed := acc1.failed },
        startedAt := some (isoTime now), completedAt := none,
        error := none } acc1.store
    let (results, accEnd) := processDomainLoop h ai now domain total rest
      (i + 1) { acc1 with store := s2 }
    (result :: results, accEnd)

/-- `AIProcessor.processDomain` (lines 72-167): list the domain's records
(limit 1000), process each with status updates, then write the final
status.  `summary.total` is the record count. -/
def processDomain (h : String → String) (ai : String → String) (now : Nat)
    (domain : String) (s : Store) :
    List AIProcResult × AISummary × Store :=
  let urlRecords := getUrlsByDomain s domain 1000 0
  let s := updateProcessingStatus
    { domain := domain, status := ProcStatus.scraping, currentUrl := none,
      progress := { total := urlRecords.length, completed := 0, failed := 0 },
      startedAt := some (isoTime now), completedAt := none,
      error := none } s
  let (results, acc) := processDomainLoop h ai now domain urlRecords.length
    urlRecords 0
    { store := s, successful := 0, failed := 0, cached := 0 }
  let s := updateProcessingStatus
    { domain := domain, status := ProcStatus.completed, currentUrl := none,
      progress := { total := urlRecords.length, completed := acc.successful,
                    failed := acc.failed },
      startedAt := some (isoTime now), completedAt := some (isoTime now),
      error := none } acc.store
  (results,
    { total := urlRecords.length, successful := acc.successful,
      failed := acc.failed, cached := acc.cached }, s)

/-! ## ProcessingPipeline (processing-pipeline.ts)

`run` drives Index → Scrape → AI-process.  `totalTime` is wall-clock and not
modelled (reported as 0).  Besides the `PipelineResult` of the source, the
model returns the final store and the URL lists each stage worked through,
for observation. -/

structure StageIndexing where
  totalUrls : Nat
  indexedUrls : Nat
  skippedUrls : Nat
  deriving DecidableEq

structure StageScraping where
  attempted : Nat
  successful : Nat
  failed : Nat
  deriving DecidableEq

structure StageAI where
  attempted : Nat
  successful : Nat
  cached : Nat
  failed : Nat
  deriving DecidableEq

structure PipelineStages where
  indexing : StageIndexing
  scraping : StageScraping
  aiProcessing : StageAI
  deriving DecidableEq

structure PipelineResult where
  success : Bool
  domain : String
  stages : PipelineStages
  totalTime : Nat
  errors : List String
  deriving DecidableEq

structure PipelineObs where
  result : PipelineResult
  scrapedUrls : List String
  aiUrls : List String
  store : Store
  deriving DecidableEq

/-- `ProcessingPipeline.run` (lines 356-448) with
`\x7b maxUrls, skipExisting: false, batchSize: 20 \x7d` passed to the
indexer.  A failed indexing stage throws `"Indexing failed"`, which the
catch appends after the indexer's own errors. -/
def pipelineRun (fetch : String → Except String ParsedSitemap)
    (h pageNameOf extractDomainF : String → String)
    (scrapeOracle : String → ScrapingResult) (ai : String → String)
    (maxUrls : Nat) (now0 : Nat) (sitemapUrl : String) (s : Store) :
    PipelineObs :=
  let (indexResult, s1) :=
    indexSitemap fetch h pageNameOf extractDomainF maxUrls false 20 now0
      sitemapUrl s
  if indexResult.success then
    let domain := indexResult.domain
    let urlRecords := getUrlsByDomain s1 domain maxUrls 0
    let urls := urlRecords.map (fun record => record.url)
    let (scrapeResults, scrapeSummary, s2) :=
      scrapeMultiple h scrapeOracle (now0 + 1000) urls s1
    let (aiResults, aiSummary, s3) :=
      processDomain h ai (now0 + 2000) domain s2
    { result :=
        { success := true, domain := domain,
          stages :=
            { indexing :=
                { totalUrls := indexResult.totalUrls,
                  indexedUrls := indexResult.indexedUrls,
                  skippedUrls := indexResult.skippedUrls },
              scraping :=
                { attempted := urls.length,
                  successful := scrapeSummary.success,
                  failed := scrapeSummary.failed },
              aiProcessing :=
                { attempted := aiSummary.total,
                  successful := aiSummary.successful,
                  cached := aiSummary.cached,
                  failed := aiSummary.failed } },
          totalTime := 0, errors := [] },
      scrapedUrls := scrapeResults.map (fun r => r.url),
      aiUrls := aiResults.map (fun r => r.url),
      store := s3 }
  else
    { result :=
        { success := false, domain := "",
          stages :=
            { indexing := { totalUrls := 0, indexedUrls := 0, skippedUrls := 0 },
              scraping := { attempted := 0, successful := 0, failed := 0 },
              aiProcessing :=
                { attempted := 0, successful := 0, cached := 0, failed := 0 } },
          totalTime := 0, errors := indexResult.errors ++ ["Indexing failed"] },
      scrapedUrls := [], aiUrls := [], store := s1 }

/-! ## Observables used by the claims -/

/-- Three consecutive newline characters occur somewhere in the list. -/
def hasTriple : List Char → Bool
  | a :: b :: c :: rest =>
    (a == '\n' && b == '\n' && c == '\n') || hasTriple (b :: c :: rest)
  | _ => false

/-- Neither end of the list is a whitespace character. -/
def isTrimmedChars (l : List Char) : Bool :=
  (match l.head? with
   | some c => !isJsWS c
   | none => true) &&
  (match l.getLast? with
   | some c => !isJsWS c
   | none => true)

/-- Modelled from the spec: the fallback schedule the claim describes —
attempts `0 .. retries-1`, with a delay of `1000 * 2 ^ attempt` between
consecutive attempts (after every attempt but the last). -/
def specFallbackTrace (retries : Nat) : List Ev :=
  ((List.range retries).map fun attempt =>
    if attempt + 1 < retries then
      [Ev.fetchAttempt attempt, Ev.sleep (1000 * 2 ^ attempt)]
    else [Ev.fetchAttempt attempt]).flatten

/-- The strategy invocations preceding the direct-fetch fallback. -/
def stratPrefixEvs (useJinaReader useBrowser : Bool) : List Ev :=
  (if useJinaReader then [Ev.jina] else []) ++
    (if useBrowser then [Ev.browser] else [])

/-! ## Concrete fixtures for witnesses and counterexamples -/

/-- An injective stand-in for `hashUrl` on concrete inputs. -/
def idHash : String → String := fun s => s

def recA : UrlRecord :=
  { url := "https://e.com/a", urlHash := "ha", domain := "e.com",
    pageName := "A", priority := none, lastmod := none, changefreq := none,
    indexed := "t0", processed := false, error := some "prev" }

def recB : UrlRecord :=
  { recA with url := "https://e.com/b", urlHash := "hb", pageName := "B",
              error := none }

/-- Domain index holding `ha` (inserted at 100) and `hb` (inserted at 200). -/
def storeAB : Store := indexUrl 200 recB (indexUrl 100 recA emptyStore)

/-- Index lists `h1` and `h2`, but only `h1` has a record: the `h2` entry is
a dangling index member (e.g. a concurrently purged record). -/
def storeDangling : Store :=
  { emptyStore with
    kvUrls := [("url:h1", { recA with urlHash := "h1" })],
    kvLists := [("urls:e.com", [("h1", 1), ("h2", 2)])] }

/-- Sitemap oracle for an index chain `s0 → s1 → s2 → s3 → s4` (four nested
index levels before a URL set, exceeding `maxDepth = 3`). -/
def chainFetch : String → Except String ParsedSitemap := fun u =>
  if u = "s0" then Except.ok ⟨[], ["s1"]⟩
  else if u = "s1" then Except.ok ⟨[], ["s2"]⟩
  else if u = "s2" then Except.ok ⟨[], ["s3"]⟩
  else if u = "s3" then Except.ok ⟨[], ["s4"]⟩
  else Except.ok ⟨[⟨"u", none, none, none⟩], []⟩

def idxOkResult : IndexingResult :=
  { success := true, domain := "x.com", totalUrls := 1, indexedUrls := 1,
    skippedUrls := 0, errors := [] }

def idxFailResult : IndexingResult :=
  { success := false, domain := "x.com", totalUrls := 0, indexedUrls := 0,
    skippedUrls := 0, errors := ["Sitemap parsing failed: HTTP 500"] }

/-- Indexing oracle for discovery: the first robots.txt sitemap fails, any
other source succeeds. -/
def idxRobots : String → IndexingResult := fun u =>
  if u = "r1" then idxFailResult else idxOkResult

/-- A "successful" scrape whose markdown is the empty string (for example an
empty Jina response body). -/
def emptyMarkdownScrape : ScrapingResult :=
  { success := true, url := "https://e.com/a", pageName := "P",
    markdown := some "", contentLength := some 0, error := none,
    method := some Method.jina }

/-- A failed Jina strategy result carrying an error message. -/
def jinaFailBoom : ScrapingResult :=
  { success := false, url := "https://e.com/a", pageName := "Unknown",
    markdown := none, contentLength := none,
    error := some "Jina scraping failed: boom", method := some Method.jina }

def fetchTryNever : Nat → Except String (String × String) :=
  fun _ => Except.error "HTTP 503: Service Unavailable"

def pcFixture : PageContent :=
  { url := "https://e.com/a", pageName := "A", markdown := "# doc",
    fetchedAt := "t1", contentLength := 5 }

def respEntryFixture : ResponseCacheEntry :=
  { prompt := "p0", response := "r0", cachedAt := "t0" }

/-- Store holding a cached response for `https://e.com/a` (under `idHash`). -/
def storeHit : Store :=
  storeResponseCache "https://e.com/a" respEntryFixture emptyStore

/-- Store holding page content but no cached prompt or response. -/
def storeContent : Store :=
  storePageContent "https://e.com/a" pcFixture emptyStore

/-- Sitemap oracle yielding three URLs `a`, `b`, `c` for the pipeline
scenario. -/
def c7Fetch : String → Except String ParsedSitemap := fun u =>
  if u = "https://ex.com/sitemap.xml" then
    Except.ok ⟨[⟨"a", none, none, none⟩, ⟨"b", none, none, none⟩,
                ⟨"c", none, none, none⟩], []⟩
  else Except.error "Sitemap parsing failed: HTTP 404"

/-- Scrape oracle that succeeds with fixed markdown for every URL. -/
def c7Scrape : String → ScrapingResult := fun u =>
  { success := true, url := u, pageName := "P", markdown := some "# doc",
    contentLength := some 5, error := none, method := some Method.fetch }

/-! ## Helper lemmas: keyspace primitives -/

theorem getA_setA_same {α : Type} (l : List (String × α)) (k : String) (v : α) :
    getA (setA l k v) k = some v := by
  induction l with
  | nil => simp [getA, setA]
  | cons p rest ih =>
    obtain ⟨k', v'⟩ := p
    by_cases hk : k' = k
    · simp [getA, setA, hk]
    · simp [getA, setA, hk, ih]

theorem getA_setA_other {α : Type} (l : List (String × α)) (k k' : String)
    (v : α) (hne : k ≠ k') : getA (setA l k v) k' = getA l k' := by
  induction l with
  | nil => simp [getA, setA, hne]
  | cons p rest ih =>
    obtain ⟨k0, v0⟩ := p
    by_cases hk : k0 = k
    · subst hk
      simp [getA, setA, hne]
    · simp only [setA, if_neg hk, getA]
      by_cases hk' : k0 = k'
      · simp [hk']
      · simp [hk', ih]

theorem getA_delA_same {α : Type} (l : List (String × α)) (k : String) :
    getA (delA l k) k = none := by
  induction l with
  | nil => simp [getA, delA]
  | cons p rest ih =>
    obtain ⟨k0, v0⟩ := p
    by_cases hk : k0 = k
    · simp [delA, hk, ih]
    · simp [delA, hk, getA, ih]

theorem mem_zInsert {x a : String × Nat} {l : List (String × Nat)} :
    a ∈ zInsert x l ↔ a = x ∨ a ∈ l := by
  induction l with
  | nil => simp [zInsert]
  | cons y ys ih =>
    by_cases hz : zleb x y
    · simp [zInsert, hz]
    · simp [zInsert, hz, ih]
      tauto

theorem mem_zSort {a : String × Nat} {l : List (String × Nat)} :
    a ∈ zSort l ↔ a ∈ l := by
  induction l with
  | nil => simp [zSort]
  | cons x xs ih => simp [zSort, mem_zInsert, ih]

/-- Membership in a range read comes from membership in the set. -/
theorem zRangeList_mem {l : List (String × Nat)} {offset count : Nat}
    {m : String} (hm : m ∈ zRangeList l offset count) :
    ∃ sc, (m, sc) ∈ l := by
  simp only [zRangeList, List.mem_map] at hm
  obtain ⟨⟨m', sc⟩, hmem, hEq⟩ := hm
  refine ⟨sc, ?_⟩
  have h1 : (m', sc) ∈ (zSort l).drop offset := List.mem_of_mem_take hmem
  have h2 : (m', sc) ∈ zSort l := List.mem_of_mem_drop h1
  cases hEq
  exact mem_zSort.mp h2

theorem zScoreList_map_update (m : String) (sc : Nat) :
    ∀ l : List (String × Nat), l.any (fun p => p.1 = m) →
      zScoreList (l.map (fun p => if p.1 = m then (p.1, sc) else p)) m =
        some sc := by
  intro l
  induction l with
  | nil => intro hc; simp at hc
  | cons p rest ih =>
    obtain ⟨m0, sc0⟩ := p
    intro hmem
    by_cases hm0 : m0 = m
    · simp only [List.map_cons, if_pos hm0]
      simp [zScoreList, List.find?_cons_of_pos, hm0]
    · simp only [List.map_cons, if_neg hm0]
      have hrest : rest.any (fun p => p.1 = m) := by
        simpa [hm0] using hmem
      simp only [zScoreList] at ih ⊢
      rw [List.find?_cons_of_neg _ (by simpa using hm0)]
      exact ih hrest

theorem zScoreList_append_new (m : String) (sc : Nat) :
    ∀ l : List (String × Nat), ¬l.any (fun p => p.1 = m) →
      zScoreList (l ++ [(m, sc)]) m = some sc := by
  intro l
  induction l with
  | nil => intro _; simp [zScoreList, List.find?_cons_of_pos]
  | cons p rest ih =>
    obtain ⟨m0, sc0⟩ := p
    intro hmem
    simp only [List.any_cons, Bool.or_eq_true, not_or] at hmem
    simp only [List.cons_append, zScoreList] at ih ⊢
    rw [List.find?_cons_of_neg _ (by simpa using hmem.1)]
    exact ih (by simpa using hmem.2)

/-- `ZADD` always leaves the member with the supplied score. -/
theorem zScoreList_zAddList (l : List (String × Nat)) (m : String)
    (sc : Nat) : zScoreList (zAddList l m sc) m = some sc := by
  by_cases hmem : l.any (fun p => p.1 = m)
  · simp only [zAddList, if_pos hmem]
    exact zScoreList_map_update m sc l hmem
  · simp only [zAddList, if_neg hmem]
    exact zScoreList_append_new m sc l hmem

/-- `ZADD` on a present member does not change the cardinality. -/
theorem zCardList_zAddList_present (l : List (String × Nat)) (m : String)
    (sc : Nat) (hmem : l.any (fun p => p.1 = m)) :
    zCardList (zAddList l m sc) = zCardList l := by
  simp [zAddList, if_pos hmem, zCardList]

theorem any_of_zScoreList_some {l : List (String × Nat)} {m : String}
    {sc : Nat} (hs : zScoreList l m = some sc) :
    l.any (fun p => p.1 = m) := by
  unfold zScoreList at hs
  cases hfind : l.find? (fun p => decide (p.1 = m)) with
  | none => rw [hfind] at hs; simp at hs
  | some p =>
    have hmem := List.mem_of_find?_eq_some hfind
    have hpm := List.find?_some hfind
    simp only [decide_eq_true_eq] at hpm
    simp only [List.any_eq_true, decide_eq_true_eq]
    exact ⟨p, hmem, hpm⟩

theorem length_filterMap_eq_length_filter {α β : Type} (f : α → Option β) :
    ∀ l : List α,
      (l.filterMap f).length = (l.filter (fun a => (f a).isSome)).length := by
  intro l
  induction l with
  | nil => rfl
  | cons a rest ih =>
    cases hfa : f a with
    | none => simp [List.filterMap_cons, List.filter_cons, hfa, ih]
    | some b => simp [List.filterMap_cons, List.filter_cons, hfa, ih]

/-! ## Claim C3 — re-indexing an existing key -/

/-- C3 (amended): `indexUrl` on a key already present in the domain index
overwrites the record and updates the sorted-set score to the current clock
value — the original insertion timestamp is bumped, not preserved — while
the member is not duplicated (the index cardinality is unchanged). -/
theorem C3_reindex_updates_score_amended (now2 : Nat) (rec : UrlRecord)
    (s : Store) (score1 : Nat)
    (hmem : zScoreList ((getA s.kvLists (RedisKeys.urlList rec.domain)).getD [])
      rec.urlHash = some score1) :
    zScoreList ((getA (indexUrl now2 rec s).kvLists
        (RedisKeys.urlList rec.domain)).getD []) rec.urlHash = some now2 ∧
    zCardList ((getA (indexUrl now2 rec s).kvLists
        (RedisKeys.urlList rec.domain)).getD []) =
      zCardList ((getA s.kvLists (RedisKeys.urlList rec.domain)).getD []) ∧
    getUrlRecord (indexUrl now2 rec s) rec.urlHash = some rec := by
  have hlists : (indexUrl now2 rec s).kvLists =
      setA s.kvLists (RedisKeys.urlList rec.domain)
        (zAddList ((getA s.kvLists (RedisKeys.urlList rec.domain)).getD [])
          rec.urlHash now2) := rfl
  have hget : (getA (indexUrl now2 rec s).kvLists
      (RedisKeys.urlList rec.domain)).getD [] =
      zAddList ((getA s.kvLists (RedisKeys.urlList rec.domain)).getD [])
        rec.urlHash now2 := by
    rw [hlists, getA_setA_same]
    rfl
  refine ⟨?_, ?_, ?_⟩
  · rw [hget]
    exact zScoreList_zAddList _ _ _
  · rw [hget]
    exact zCardList_zAddList_present _ _ _ (any_of_zScoreList_some hmem)
  · show getA (setA s.kvUrls (RedisKeys.url rec.urlHash) rec)
      (RedisKeys.url rec.urlHash) = some rec
    exact getA_setA_same _ _ _

/-- C3 counterexample: with `ha` inserted at time 100 and `hb` at 200,
re-running `indexUrl` for `ha` at time 300 changes its score from 100 to 300
and moves it behind `hb` in the domain index — re-indexing is not a no-op
for the ordering and the original timestamp is not preserved. -/
theorem C3_counterexample_score_bumped :
    zScoreList ((getA storeAB.kvLists (RedisKeys.urlList "e.com")).getD [])
        "ha" = some 100 ∧
    zScoreList ((getA (indexUrl 300 recA storeAB).kvLists
        (RedisKeys.urlList "e.com")).getD []) "ha" = some 300 ∧
    zRangeList ((getA storeAB.kvLists (RedisKeys.urlList "e.com")).getD [])
        0 10 = ["ha", "hb"] ∧
    zRangeList ((getA (indexUrl 300 recA storeAB).kvLists
        (RedisKeys.urlList "e.com")).getD []) 0 10 = ["hb", "ha"] := by
  decide

theorem C3_amended_witness :
    zScoreList ((getA (indexUrl 300 recA storeAB).kvLists
        (RedisKeys.urlList recA.domain)).getD []) recA.urlHash = some 300 ∧
    zCardList ((getA (indexUrl 300 recA storeAB).kvLists
        (RedisKeys.urlList recA.domain)).getD []) =
      zCardList ((getA storeAB.kvLists (RedisKeys.urlList recA.domain)).getD []) ∧
    getUrlRecord (indexUrl 300 recA storeAB) recA.urlHash = some recA :=
  C3_reindex_updates_score_amended 300 recA storeAB 100 (by decide)

/-! ## Claim C8 — markProcessed frame conditions -/

/-- C8 (amended): `markUrlProcessed` sets `processed`; it sets `error` only
when a non-empty error string is supplied (an empty string is falsy and is
dropped, keeping the previous value); every other record field, every other
key and every other key class is untouched; a missing record makes the call
a silent no-op. -/
theorem C8_mark_processed_amended (urlHash : String) (success : Bool)
    (err : Option String) (s : Store) :
    (getUrlRecord s urlHash = none →
      markUrlProcessed urlHash success err s = s) ∧
    (∀ rec, getUrlRecord s urlHash = some rec →
      getUrlRecord (markUrlProcessed urlHash success err s) urlHash =
        some { rec with
               processed := success,
               error := match err with
                        | some e => if e = "" then rec.error else some e
                        | none => rec.error } ∧
      (∀ k, k ≠ RedisKeys.url urlHash →
        getA (markUrlProcessed urlHash success err s).kvUrls k =
          getA s.kvUrls k) ∧
      (markUrlProcessed urlHash success err s).kvLists = s.kvLists ∧
      (markUrlProcessed urlHash success err s).kvContents = s.kvContents ∧
      (markUrlProcessed urlHash success err s).kvPrompts = s.kvPrompts ∧
      (markUrlProcessed urlHash success err s).kvResponses = s.kvResponses ∧
      (markUrlProcessed urlHash success err s).kvSitemaps = s.kvSitemaps ∧
      (markUrlProcessed urlHash success err s).kvStatuses = s.kvStatuses) := by
  constructor
  · intro hnone
    simp [markUrlProcessed, hnone]
  · intro rec hrec
    cases err with
    | none =>
      simp only [markUrlProcessed, hrec]
      exact ⟨getA_setA_same _ _ _,
        fun k hk => getA_setA_other _ _ _ _ (fun hc => hk hc.symm),
        trivial, trivial, trivial, trivial, trivial, trivial⟩
    | some e =>
      simp only [markUrlProcessed, hrec]
      by_cases he : e = ""
      · simp only [he]
        exact ⟨getA_setA_same _ _ _,
          fun k hk => getA_setA_other _ _ _ _ (fun hc => hk hc.symm),
          trivial, trivial, trivial, trivial, trivial, trivial⟩
      · simp only [if_neg he]
        exact ⟨getA_setA_same _ _ _,
          fun k hk => getA_setA_other _ _ _ _ (fun hc => hk hc.symm),
          trivial, trivial, trivial, trivial, trivial, trivial⟩

/-- C8 counterexample: an error IS supplied (the empty string), yet the
record's `error` field keeps its previous value `some "prev"` instead of
being set to the supplied value, because `if (error)` treats `""` as falsy. -/
theorem C8_counterexample_empty_error_ignored :
    (getUrlRecord (markUrlProcessed "ha" true (some "")
        (indexUrl 100 recA emptyStore)) "ha").map (fun r => r.error) =
      some (some "prev") ∧
    (getUrlRecord (markUrlProcessed "ha" true (some "")
        (indexUrl 100 recA emptyStore)) "ha").map (fun r => r.processed) =
      some true ∧
    (some "prev" : Option String) ≠ some "" := by
  decide

theorem C8_amended_witness :
    markUrlProcessed "missing" true (some "oops") emptyStore = emptyStore ∧
    getUrlRecord (markUrlProcessed "ha" false (some "oops")
        (indexUrl 100 recA emptyStore)) "ha" =
      some { recA with processed := false, error := some "oops" } :=
  ⟨(C8_mark_processed_amended "missing" true (some "oops") emptyStore).1 rfl,
   ((C8_mark_processed_amended "ha" false (some "oops")
      (indexUrl 100 recA emptyStore)).2 recA (by decide)).1⟩

/-! ## Claim C10 — listing filters out dangling index entries -/

/-- C10: `getUrlsByDomain` returns only records that exist in the store:
every returned record is backed by a member of the domain's sorted set whose
per-key record is present, and a member whose record is missing contributes
nothing (no null entry, no error) — the result length is the number of range
members whose record lookup succeeds. -/
theorem C10_list_filters_missing (s : Store) (domain : String)
    (limit offset : Nat) :
    (∀ r ∈ getUrlsByDomain s domain limit offset,
       ∃ urlHash score,
         (urlHash, score) ∈
           (getA s.kvLists (RedisKeys.urlList domain)).getD [] ∧
         getUrlRecord s urlHash = some r) ∧
    (getUrlsByDomain s domain limit offset).length =
      ((zRangeList ((getA s.kvLists (RedisKeys.urlList domain)).getD [])
          offset limit).filter
        (fun urlHash => (getUrlRecord s urlHash).isSome)).length := by
  constructor
  · intro r hr
    simp only [getUrlsByDomain, List.mem_filterMap, List.mem_map, id,
      Option.mem_def] at hr
    obtain ⟨o, ⟨urlHash, hmemRange, ho⟩, hor⟩ := hr
    obtain ⟨score, hsc⟩ := zRangeList_mem hmemRange
    exact ⟨urlHash, score, hsc, by rw [ho, hor]⟩
  · simp only [getUrlsByDomain]
    rw [List.filterMap_map]
    exact length_filterMap_eq_length_filter _ _

theorem C10_list_filters_missing_witness :
    ({ recA with urlHash := "h1" } ∈ getUrlsByDomain storeDangling "e.com" 10 0) ∧
    (∃ urlHash score,
       (urlHash, score) ∈
         (getA storeDangling.kvLists (RedisKeys.urlList "e.com")).getD [] ∧
       getUrlRecord storeDangling urlHash =
         some { recA with urlHash := "h1" }) ∧
    (getUrlsByDomain storeDangling "e.com" 10 0).length = 1 :=
  ⟨by decide,
   (C10_list_filters_missing storeDangling "e.com" 10 0).1 _ (by decide),
   by decide⟩

/-! ## Claim C4 — sitemap depth guard -/

/-- C4 (amended): the depth guard fires only when a call itself starts at
`currentDepth ≥ maxDepth`; when the root fetch succeeds and returns an
index at a depth still below `maxDepth`, the resolution succeeds — child
failures, the depth guard included, are caught and skipped, never surfaced
to the top-level caller. -/
theorem C4_depth_guard_amended :
    (∀ (fetch : String → Except String ParsedSitemap) (url : String)
       (maxDepth currentDepth : Nat), maxDepth ≤ currentDepth →
       parseRecursive fetch url maxDepth currentDepth =
         Except.error "Maximum sitemap depth reached") ∧
    (∀ (fetch : String → Except String ParsedSitemap) (url : String)
       (maxDepth currentDepth : Nat) (parsed : ParsedSitemap),
       currentDepth < maxDepth → fetch url = Except.ok parsed →
       parsed.sitemapIndexUrls ≠ [] →
       ∃ urls, parseRecursive fetch url maxDepth currentDepth =
         Except.ok urls) := by
  constructor
  · intro fetch url maxDepth currentDepth hle
    unfold parseRecursive
    rw [Nat.sub_eq_zero_of_le hle]
    rfl
  · intro fetch url maxDepth currentDepth parsed hlt hfetch _
    unfold parseRecursive
    have hfuel : maxDepth - currentDepth = (maxDepth - currentDepth - 1) + 1 := by
      omega
    rw [hfuel]
    by_cases hie : parsed.sitemapIndexUrls.isEmpty
    · exact ⟨parsed.urls, by simp [parseRecursiveAux, hfetch, hie]⟩
    · refine ⟨(parsed.sitemapIndexUrls.map fun child =>
          match parseRecursiveAux fetch (maxDepth - currentDepth - 1) child with
          | Except.ok childUrls => childUrls
          | Except.error _ => []).flatten, ?_⟩
      simp only [parseRecursiveAux, hfetch]
      rw [if_neg (by simpa using hie)]

/-- C4 counterexample: `chainFetch` nests sitemap indexes four levels deep;
with the default `maxDepth = 3` the top-level `parseRecursive` call does NOT
fail with a depth-exceeded error — the guard fires inside a child, is caught
by the parent's per-child `catch`, and the call succeeds with an empty URL
list. -/
theorem C4_counterexample_depth_swallowed :
    parseRecursive chainFetch "s0" 3 0 = Except.ok [] ∧
    (Except.ok [] : Except String (List SitemapUrl)) ≠
      Except.error "Maximum sitemap depth reached" :=
  ⟨rfl, fun h => Except.noConfusion h⟩

theorem C4_depth_guard_amended_witness :
    parseRecursive chainFetch "s4" 3 3 =
      Except.error "Maximum sitemap depth reached" ∧
    ∃ urls, parseRecursive chainFetch "s0" 3 0 = Except.ok urls :=
  ⟨C4_depth_guard_amended.1 chainFetch "s4" 3 3 (Nat.le_refl 3),
   C4_depth_guard_amended.2 chainFetch "s0" 3 0 ⟨[], ["s1"]⟩ (by decide) rfl
     (by decide)⟩

/-! ## Claim C5 — sitemap auto-discovery order -/

theorem tryCommonUrls_first_success (idx : String → IndexingResult)
    (validate : String → Bool) (dom : String) :
    ∀ (pre : List String) (u : String) (post : List String),
      (∀ v ∈ pre, validate v = false ∨ (idx v).success = false) →
      validate u = true → (idx u).success = true →
      tryCommonUrls idx validate dom (pre ++ u :: post) = idx u := by
  intro pre
  induction pre with
  | nil =>
    intro u post _ hv hs
    simp [tryCommonUrls, hv, hs]
  | cons v vs ih =>
    intro u post hpre hv hs
    have hnext : tryCommonUrls idx validate dom (vs ++ u :: post) = idx u :=
      ih u post (fun w hw => hpre w (by simp [hw])) hv hs
    rcases hpre v (by simp) with hvf | hif
    · simpa [tryCommonUrls, hvf] using hnext
    · by_cases hvv : validate v
      · simpa [tryCommonUrls, hvv, hif] using hnext
      · simpa [tryCommonUrls, hvv] using hnext

/-- C5 (amended): when robots.txt lists at least one sitemap,
`autoDiscoverAndIndex` returns the result of indexing ONLY the first listed
sitemap, successful or not — later robots entries and the conventional paths
are never tried.  Only with no robots.txt sitemaps are the conventional
paths tried in order, skipping entries that fail validation, returning the
first successfully indexed source's result. -/
theorem C5_auto_discovery_amended :
    (∀ (robots : List String) (first : String) (rest : List String)
       (idx : String → IndexingResult) (validate : String → Bool)
       (origin dom : String), robots = first :: rest →
       autoDiscoverAndIndex robots idx validate origin dom = idx first) ∧
    (∀ (idx : String → IndexingResult) (validate : String → Bool)
       (origin dom : String) (pre : List String) (u : String)
       (post : List String),
       getCommonSitemapUrls origin = pre ++ u :: post →
       (∀ v ∈ pre, validate v = false ∨ (idx v).success = false) →
       validate u = true → (idx u).success = true →
       autoDiscoverAndIndex [] idx validate origin dom = idx u) := by
  constructor
  · intro robots first rest idx validate origin dom hr
    subst hr
    rfl
  · intro idx validate origin dom pre u post hdecomp hpre hv hs
    show tryCommonUrls idx validate dom (getCommonSitemapUrls origin) = idx u
    rw [hdecomp]
    exact tryCommonUrls_first_success idx validate dom pre u post hpre hv hs

/-- C5 counterexample: robots.txt lists `r1` (whose indexing fails) and `r2`
(whose indexing would succeed); `autoDiscoverAndIndex` returns `r1`'s
failure — the failure of the first robots.txt sitemap DOES prevent later
sources from being tried, contrary to the claim. -/
theorem C5_counterexample_first_robots_only :
    (autoDiscoverAndIndex ["r1", "r2"] idxRobots (fun _ => true)
        "https://x.com" "x.com").success = false ∧
    (idxRobots "r2").success = true ∧
    autoDiscoverAndIndex ["r1", "r2"] idxRobots (fun _ => true)
        "https://x.com" "x.com" = idxFailResult := by
  decide

theorem C5_auto_discovery_amended_witness :
    autoDiscoverAndIndex ["r1", "r2"] idxRobots (fun _ => true)
        "https://x.com" "x.com" = idxRobots "r1" ∧
    autoDiscoverAndIndex [] idxRobots (fun _ => true) "https://x.com"
        "x.com" = idxRobots "https://x.com/sitemap.xml" :=
  ⟨C5_auto_discovery_amended.1 ["r1", "r2"] "r1" ["r2"] idxRobots
     (fun _ => true) "https://x.com" "x.com" rfl,
   C5_auto_discovery_amended.2 idxRobots (fun _ => true) "https://x.com"
     "x.com" [] "https://x.com/sitemap.xml"
     ["https://x.com/sitemap_index.xml", "https://x.com/sitemap-index.xml",
      "https://x.com/sitemap1.xml", "https://x.com/robots.txt"] rfl
     (by simp) rfl (by decide)⟩

/-! ## Claim C2 — scrape-and-cache hit short-circuit -/

/-- A cache hit short-circuits `scrapeAndCache`: the stored content is
returned, the store is untouched and the scraping chain is not invoked. -/
theorem scrapeAndCache_hit (h : String → String) (scr : ScrapingResult)
    (now : Nat) (url : String) (s : Store) (pc : PageContent)
    (hhit : getPageContent s (h url) = some pc) :
    scrapeAndCache h scr now url s =
      ({ success := true, url := pc.url, pageName := pc.pageName,
         markdown := some pc.markdown, contentLength := some pc.contentLength,
         error := none, method := none }, s, 0) := by
  simp only [scrapeAndCache, hhit]

/-- C2 (amended): when the first `scrapeAndCache` call scrapes successfully
with NON-EMPTY markdown on a fresh key, the content is persisted and the
second call returns the stored markdown without invoking the scraping chain
(one upstream scrape total) and without modifying the store. -/
theorem C2_scrape_once_amended (h : String → String)
    (scr1 scr2 : ScrapingResult) (now1 now2 : Nat) (url : String) (s : Store)
    (m : String) (hfresh : getPageContent s (h url) = none)
    (hsucc : scr1.success = true) (hmd : scr1.markdown = some m)
    (hm : m ≠ "") :
    (scrapeAndCache h scr1 now1 url s).2.2 = 1 ∧
    getPageContent (scrapeAndCache h scr1 now1 url s).2.1 (h url) =
      some { url := url, pageName := scr1.pageName, markdown := m,
             fetchedAt := isoTime now1,
             contentLength := scr1.contentLength.getD 0 } ∧
    (scrapeAndCache h scr2 now2 url
        (scrapeAndCache h scr1 now1 url s).2.1).2.2 = 0 ∧
    (scrapeAndCache h scr2 now2 url
        (scrapeAndCache h scr1 now1 url s).2.1).1.success = true ∧
    (scrapeAndCache h scr2 now2 url
        (scrapeAndCache h scr1 now1 url s).2.1).1.markdown = some m ∧
    (scrapeAndCache h scr2 now2 url
        (scrapeAndCache h scr1 now1 url s).2.1).2.1 =
      (scrapeAndCache h scr1 now1 url s).2.1 := by
  have hcond : (scr1.success && !(m = "")) = true := by
    rw [hsucc]
    simp [hm]
  have hstep : scrapeAndCache h scr1 now1 url s =
      (scr1, storePageContent (h url)
        { url := url, pageName := scr1.pageName, markdown := m,
          fetchedAt := isoTime now1,
          contentLength := scr1.contentLength.getD 0 } s, 1) := by
    simp only [scrapeAndCache, hfresh, hmd, hcond, if_true]
  have hlook : getPageContent (scrapeAndCache h scr1 now1 url s).2.1 (h url) =
      some { url := url, pageName := scr1.pageName, markdown := m,
             fetchedAt := isoTime now1,
             contentLength := scr1.contentLength.getD 0 } := by
    rw [hstep]
    exact getA_setA_same _ _ _
  have hsecond := scrapeAndCache_hit h scr2 now2 url
    (scrapeAndCache h scr1 now1 url s).2.1 _ hlook
  exact ⟨by rw [hstep], hlook, by rw [hsecond], by rw [hsecond],
    by rw [hsecond], by rw [hsecond]⟩

/-- C2 counterexample: a "successful" first scrape whose markdown is the
empty string is NOT persisted (`result.success && result.markdown` is falsy
for `""`), so the second call for the same URL invokes the scraping chain
again — two upstream scrapes, not one. -/
theorem C2_counterexample_empty_markdown :
    emptyMarkdownScrape.success = true ∧
    (scrapeAndCache idHash emptyMarkdownScrape 0 "https://e.com/a"
        emptyStore).2.2 = 1 ∧
    getPageContent (scrapeAndCache idHash emptyMarkdownScrape 0
        "https://e.com/a" emptyStore).2.1 (idHash "https://e.com/a") = none ∧
    (scrapeAndCache idHash emptyMarkdownScrape 1 "https://e.com/a"
        (scrapeAndCache idHash emptyMarkdownScrape 0 "https://e.com/a"
          emptyStore).2.1).2.2 = 1 := by
  decide

theorem C2_scrape_once_amended_witness :
    (scrapeAndCache idHash (c7Scrape "u") 0 "u" emptyStore).2.2 = 1 ∧
    getPageContent (scrapeAndCache idHash (c7Scrape "u") 0 "u"
        emptyStore).2.1 (idHash "u") =
      some { url := "u", pageName := (c7Scrape "u").pageName,
             markdown := "# doc", fetchedAt := isoTime 0,
             contentLength := (c7Scrape "u").contentLength.getD 0 } ∧
    (scrapeAndCache idHash (c7Scrape "u") 1 "u"
        (scrapeAndCache idHash (c7Scrape "u") 0 "u" emptyStore).2.1).2.2 = 0 ∧
    (scrapeAndCache idHash (c7Scrape "u") 1 "u"
        (scrapeAndCache idHash (c7Scrape "u") 0 "u"
          emptyStore).2.1).1.success = true ∧
    (scrapeAndCache idHash (c7Scrape "u") 1 "u"
        (scrapeAndCache idHash (c7Scrape "u") 0 "u"
          emptyStore).2.1).1.markdown = some "# doc" ∧
    (scrapeAndCache idHash (c7Scrape "u") 1 "u"
        (scrapeAndCache idHash (c7Scrape "u") 0 "u" emptyStore).2.1).2.1 =
      (scrapeAndCache idHash (c7Scrape "u") 0 "u" emptyStore).2.1 :=
  C2_scrape_once_amended idHash (c7Scrape "u") (c7Scrape "u") 0 1 "u"
    emptyStore "# doc" rfl rfl rfl (by decide)

/-! ## Claim C1 — response cache write-once -/

theorem generatePrompt_ne_empty (pc : PageContent) :
    generatePrompt pc ≠ "" := by
  intro hc
  have hlen := congrArg String.length hc
  simp only [generatePrompt, String.length_append] at hlen
  have h1 : 0 < String.length "Page Analysis Request\n\nPage Name: " := by
    decide
  have h2 : String.length "" = 0 := rfl
  omega

/-- C1 (amended): while a `ResponseCacheEntry` is present for the key,
`processWithAI` returns that entry's response with `fromCache = true`, never
invokes the completion function and leaves the store unchanged; `clearCache`
deletes the prompt and response entries.  When no entry is present AND page
content exists for the key, the completion function is invoked exactly once
and the `(prompt, response)` pair is persisted under the key.  When no entry
and no content are present, the call fails with an error and the completion
function is not invoked at all. -/
theorem C1_response_cache_write_once_amended (h : String → String)
    (ai : String → String) (now : Nat) (url : String) (s : Store) :
    (∀ entry, getResponseCache s (h url) = some entry →
       processWithAI h ai now url s =
         ({ success := true, response := some entry.response,
            fromCache := some true, error := none }, s, 0)) ∧
    (getResponseCache s (h url) = none →
      getPageContent s (h url) = none →
      processWithAI h ai now url s =
        ({ success := false, response := none, fromCache := none,
           error := some "Page content not found in cache" }, s, 0)) ∧
    (∀ pc, getResponseCache s (h url) = none →
      getPageContent s (h url) = some pc →
      ∃ p, (processWithAI h ai now url s).2.2 = 1 ∧
        (processWithAI h ai now url s).1 =
          { success := true, response := some (ai p),
            fromCache := some false, error := none } ∧
        getResponseCache (processWithAI h ai now url s).2.1 (h url) =
          some { prompt := p, response := ai p, cachedAt := isoTime now }) ∧
    (getResponseCache (clearCache h url s) (h url) = none ∧
     getPromptCache (clearCache h url s) (h url) = none) := by
  refine ⟨?_, ?_, ?_, ?_, ?_⟩
  · intro entry he
    simp [processWithAI, getCachedResponse, he]
  · intro hr hc
    simp [processWithAI, getCachedResponse, hr, processPage, hc, promptFailMsg]
  · intro pc hr hc
    have hresp : getCachedResponse h url s = none := by
      simp [getCachedResponse, hr]
    cases hcp : getCachedPrompt h url s with
    | none =>
      have hpp : processPage h now url s =
          ({ success := true, prompt := some (generatePrompt pc),
             cached := some false, error := none },
           cachePrompt h now url (generatePrompt pc) s) := by
        simp only [processPage, hc, hcp]
      have hmain : processWithAI h ai now url s =
          ({ success := true, response := some (ai (generatePrompt pc)),
             fromCache := some false, error := none },
           cacheResponse h now url (generatePrompt pc)
             (ai (generatePrompt pc))
             (cachePrompt h now url (generatePrompt pc) s), 1) := by
        simp only [processWithAI, hresp, hpp]
        rw [if_neg (by simp [generatePrompt_ne_empty pc])]
      exact ⟨generatePrompt pc, by rw [hmain], by rw [hmain],
        by rw [hmain]; exact getA_setA_same _ _ _⟩
    | some p =>
      by_cases hp : p = ""
      · have hpp : processPage h now url s =
            ({ success := true, prompt := some (generatePrompt pc),
               cached := some false, error := none },
             cachePrompt h now url (generatePrompt pc) s) := by
          simp [processPage, hc, hcp, hp]
        have hmain : processWithAI h ai now url s =
            ({ success := true, response := some (ai (generatePrompt pc)),
               fromCache := some false, error := none },
             cacheResponse h now url (generatePrompt pc)
               (ai (generatePrompt pc))
               (cachePrompt h now url (generatePrompt pc) s), 1) := by
          simp only [processWithAI, hresp, hpp]
          rw [if_neg (by simp [generatePrompt_ne_empty pc])]
        exact ⟨generatePrompt pc, by rw [hmain], by rw [hmain],
          by rw [hmain]; exact getA_setA_same _ _ _⟩
      · have hpp : processPage h now url s =
            ({ success := true, prompt := some p, cached := some true,
               error := none }, s) := by
          simp only [processPage, hc, hcp]
          rw [if_neg hp]
        have hmain : processWithAI h ai now url s =
            ({ success := true, response := some (ai p),
               fromCache := some false, error := none },
             cacheResponse h now url p (ai p) s, 1) := by
          simp only [processWithAI, hresp, hpp]
          rw [if_neg (by simp [hp])]
        exact ⟨p, by rw [hmain], by rw [hmain],
          by rw [hmain]; exact getA_setA_same _ _ _⟩
  · exact getA_delA_same _ _
  · show getA (delA s.kvPrompts (RedisKeys.promptCache (h url)))
      (RedisKeys.promptCache (h url)) = none
    exact getA_delA_same _ _

/-- C1 counterexample: with no cached response AND no page content for the
key, `processWithAI` does not invoke the completion function at all (zero
invocations, not exactly one) and persists nothing — the unconditional
"invoked exactly once on a cache miss" part of the claim is false. -/
theorem C1_counterexample_missing_content :
    getResponseCache emptyStore (idHash "https://e.com/a") = none ∧
    (processWithAI idHash (fun _ => "resp") 0 "https://e.com/a"
        emptyStore).2.2 = 0 ∧
    (processWithAI idHash (fun _ => "resp") 0 "https://e.com/a"
        emptyStore).1.success = false ∧
    getResponseCache (processWithAI idHash (fun _ => "resp") 0
        "https://e.com/a" emptyStore).2.1 (idHash "https://e.com/a") =
      none := by
  decide

theorem C1_response_cache_write_once_amended_witness :
    processWithAI idHash (fun _ => "resp") 0 "https://e.com/a" storeHit =
      ({ success := true, response := some respEntryFixture.response,
         fromCache := some true, error := none }, storeHit, 0) ∧
    processWithAI idHash (fun _ => "resp") 0 "https://e.com/a" emptyStore =
      ({ success := false, response := none, fromCache := none,
         error := some "Page content not found in cache" }, emptyStore, 0) ∧
    (∃ p, (processWithAI idHash (fun _ => "resp") 0 "https://e.com/a"
        storeContent).2.2 = 1 ∧
      (processWithAI idHash (fun _ => "resp") 0 "https://e.com/a"
          storeContent).1 =
        { success := true, response := some ((fun _ => "resp") p),
          fromCache := some false, error := none } ∧
      getResponseCache (processWithAI idHash (fun _ => "resp") 0
          "https://e.com/a" storeContent).2.1 (idHash "https://e.com/a") =
        some { prompt := p, response := (fun _ => "resp") p,
               cachedAt := isoTime 0 }) ∧
    getResponseCache (clearCache idHash "https://e.com/a" storeHit)
      (idHash "https://e.com/a") = none :=
  ⟨(C1_response_cache_write_once_amended idHash (fun _ => "resp") 0
      "https://e.com/a" storeHit).1 respEntryFixture rfl,
   (C1_response_cache_write_once_amended idHash (fun _ => "resp") 0
      "https://e.com/a" emptyStore).2.1 rfl rfl,
   (C1_response_cache_write_once_amended idHash (fun _ => "resp") 0
      "https://e.com/a" storeContent).2.2.1 pcFixture rfl rfl,
   (C1_response_cache_write_once_amended idHash (fun _ => "resp") 0
      "https://e.com/a" storeHit).2.2.2.1⟩

/-! ## Claim C6 — fetch strategy chain -/

/-- One failed step of the retry loop. -/
theorem fetchLoop_succ_err (fetchTry : Nat → Except String (String × String))
    (url : String) (retries rem attempt : Nat) (lastE : Option String)
    (msg : String) (hferr : fetchTry attempt = Except.error msg) :
    fetchLoop fetchTry url retries (rem + 1) attempt lastE =
      ((fetchLoop fetchTry url retries rem (attempt + 1) (some msg)).1,
       (if attempt < retries - 1 then
          [Ev.fetchAttempt attempt, Ev.sleep (1000 * 2 ^ attempt)]
        else [Ev.fetchAttempt attempt]) ++
         (fetchLoop fetchTry url retries rem (attempt + 1) (some msg)).2) := by
  simp only [fetchLoop]
  rw [hferr]

/-- One successful step of the retry loop. -/
theorem fetchLoop_succ_ok (fetchTry : Nat → Except String (String × String))
    (url : String) (retries rem attempt : Nat) (lastE : Option String)
    (pn md : String) (hok : fetchTry attempt = Except.ok (pn, md)) :
    fetchLoop fetchTry url retries (rem + 1) attempt lastE =
      (mkFetchOk url pn md, [Ev.fetchAttempt attempt]) := by
  simp only [fetchLoop]
  rw [hok]

/-- When every attempt from `attempt` on fails, the retry loop returns the
final-failure result carrying the LAST attempt's message, with the backoff
sleeps `1000 * 2 ^ a` after every attempt but the last. -/
theorem fetchLoop_all_fail (fetchTry : Nat → Except String (String × String))
    (url : String) (retries : Nat) (msg : Nat → String) :
    ∀ (rem attempt : Nat) (lastE : Option String),
      attempt + rem = retries → 1 ≤ rem →
      (∀ n, attempt ≤ n → n < retries → fetchTry n = Except.error (msg n)) →
      fetchLoop fetchTry url retries rem attempt lastE =
        (mkFetchFail url (some (msg (retries - 1))),
         ((List.range' attempt rem).map fun a =>
           if a + 1 < retries then
             [Ev.fetchAttempt a, Ev.sleep (1000 * 2 ^ a)]
           else [Ev.fetchAttempt a]).flatten) := by
  intro rem
  induction rem with
  | zero =>
    intro attempt lastE _ h1 _
    exact absurd h1 (by omega)
  | succ r ih =>
    intro attempt lastE hsum _ hfail
    have hferr : fetchTry attempt = Except.error (msg attempt) :=
      hfail attempt (Nat.le_refl _) (by omega)
    rw [fetchLoop_succ_err fetchTry url retries r attempt lastE
      (msg attempt) hferr]
    cases r with
    | zero =>
      have hatt : attempt = retries - 1 := by omega
      have hcond : ¬(attempt < retries - 1) := by omega
      have hmapc : ¬(attempt + 1 < retries) := by omega
      rw [← hatt]
      simp [fetchLoop, if_neg hcond, if_neg hmapc, List.range']
    | succ r' =>
      have hcond : attempt < retries - 1 := by omega
      have hmapc : attempt + 1 < retries := by omega
      rw [ih (attempt + 1) (some (msg attempt)) (by omega) (by omega)
        (fun n hn hn2 => hfail n (by omega) hn2)]
      simp [if_pos hcond, if_pos hmapc, List.range']

/-- The retry loop returns the first successful attempt's conversion. -/
theorem fetchLoop_first_success
    (fetchTry : Nat → Except String (String × String)) (url : String)
    (retries : Nat) (pn md : String) (k : Nat) (msg : Nat → String) :
    ∀ (rem attempt : Nat) (lastE : Option String),
      attempt + rem = retries → attempt ≤ k → k < retries →
      fetchTry k = Except.ok (pn, md) →
      (∀ n, attempt ≤ n → n < k → fetchTry n = Except.error (msg n)) →
      (fetchLoop fetchTry url retries rem attempt lastE).1 =
        mkFetchOk url pn md := by
  intro rem
  induction rem with
  | zero =>
    intro attempt lastE hsum hak hk _ _
    omega
  | succ r ih =>
    intro attempt lastE hsum hak hk hok hfail
    by_cases heq : attempt = k
    · subst heq
      rw [fetchLoop_succ_ok fetchTry url retries r attempt lastE pn md hok]
    · have hferr : fetchTry attempt = Except.error (msg attempt) :=
        hfail attempt (Nat.le_refl _) (by omega)
      have hrec := ih (attempt + 1) (some (msg attempt)) (by omega)
        (by omega) hk hok (fun n hn hn2 => hfail n (by omega) hn2)
      rw [fetchLoop_succ_err fetchTry url retries r attempt lastE
        (msg attempt) hferr]
      exact hrec

/-- C6 (amended): the chain returns the first successful strategy's result;
the direct-fetch fallback runs whenever the enabled earlier strategies fail,
with up to `retries` attempts and a `1000 * 2 ^ attempt` delay between
consecutive attempts; when all attempts fail, the error is the LAST
direct-fetch attempt's message when at least one attempt was made (with the
fixed string `"All scraping methods failed"` replacing an absent or empty
message, per `mkFetchFail`) — Jina/browser failure messages are never
carried into the final result. -/
theorem C6_strategy_chain_amended :
    (∀ (jr br : ScrapingResult)
       (ft : Nat → Except String (String × String)) (ub : Bool)
       (retries : Nat) (url : String), jr.success = true →
       scrapePage jr br ft true ub retries url = (jr, [Ev.jina])) ∧
    (∀ (jr br : ScrapingResult)
       (ft : Nat → Except String (String × String)) (uj : Bool)
       (retries : Nat) (url : String),
       (uj = false ∨ jr.success = false) → br.success = true →
       scrapePage jr br ft uj true retries url =
         (br, (if uj then [Ev.jina] else []) ++ [Ev.browser])) ∧
    (∀ (jr br : ScrapingResult)
       (ft : Nat → Except String (String × String)) (uj ub : Bool)
       (retries : Nat) (url pn md : String) (k : Nat) (msg : Nat → String),
       (uj = false ∨ jr.success = false) → (ub = false ∨ br.success = false) →
       k < retries → ft k = Except.ok (pn, md) →
       (∀ n, n < k → ft n = Except.error (msg n)) →
       (scrapePage jr br ft uj ub retries url).1 = mkFetchOk url pn md) ∧
    (∀ (jr br : ScrapingResult)
       (ft : Nat → Except String (String × String)) (uj ub : Bool)
       (retries : Nat) (url : String) (msg : Nat → String),
       (uj = false ∨ jr.success = false) → (ub = false ∨ br.success = false) →
       1 ≤ retries → (∀ n, n < retries → ft n = Except.error (msg n)) →
       scrapePage jr br ft uj ub retries url =
         (mkFetchFail url (some (msg (retries - 1))),
          stratPrefixEvs uj ub ++ specFallbackTrace retries)) := by
  have hloop : ∀ (ft : Nat → Except String (String × String))
      (retries : Nat) (url : String) (msg : Nat → String),
      1 ≤ retries → (∀ n, n < retries → ft n = Except.error (msg n)) →
      fetchLoop ft url retries retries 0 none =
        (mkFetchFail url (some (msg (retries - 1))),
         specFallbackTrace retries) := by
    intro ft retries url msg hr hfail
    rw [fetchLoop_all_fail ft url retries msg retries 0 none (by omega) hr
      (fun n _ hn2 => hfail n hn2)]
    simp only [specFallbackTrace, List.range_eq_range']
  refine ⟨?_, ?_, ?_, ?_⟩
  · intro jr br ft ub retries url hj
    simp [scrapePage, hj]
  · intro jr br ft uj retries url huj hbr
    rcases huj with huj | huj
    · subst huj
      simp [scrapePage, hbr]
    · cases uj with
      | false => simp [scrapePage, hbr]
      | true => simp [scrapePage, huj, hbr]
  · intro jr br ft uj ub retries url pn md k msg huj hub hk hok hfail
    have hfs := fetchLoop_first_success ft url retries pn md k msg retries 0
      none (by omega) (by omega) hk hok (fun n _ hn2 => hfail n hn2)
    have hjf : uj = true → jr.success = false := fun hT => by
      rcases huj with h' | h'
      · rw [hT] at h'
        exact absurd h' (by simp)
      · exact h'
    have hbf : ub = true → br.success = false := fun hT => by
      rcases hub with h' | h'
      · rw [hT] at h'
        exact absurd h' (by simp)
      · exact h'
    cases uj with
    | false =>
      cases ub with
      | false => simpa [scrapePage] using hfs
      | true => simpa [scrapePage, hbf rfl] using hfs
    | true =>
      cases ub with
      | false => simpa [scrapePage, hjf rfl] using hfs
      | true => simpa [scrapePage, hjf rfl, hbf rfl] using hfs
  · intro jr br ft uj ub retries url msg huj hub hr hfail
    have hfl := hloop ft retries url msg hr hfail
    have hjf : uj = true → jr.success = false := fun hT => by
      rcases huj with h' | h'
      · rw [hT] at h'
        exact absurd h' (by simp)
      · exact h'
    have hbf : ub = true → br.success = false := fun hT => by
      rcases hub with h' | h'
      · rw [hT] at h'
        exact absurd h' (by simp)
      · exact h'
    cases uj with
    | false =>
      cases ub with
      | false => simp [scrapePage, stratPrefixEvs, hfl]
      | true => simp [scrapePage, stratPrefixEvs, hbf rfl, hfl]
    | true =>
      cases ub with
      | false => simp [scrapePage, stratPrefixEvs, hjf rfl, hfl]
      | true => simp [scrapePage, stratPrefixEvs, hjf rfl, hbf rfl, hfl]

/-- C6 counterexample: with `retries = 0` and the Jina strategy enabled and
failing with message `"Jina scraping failed: boom"`, the final result's
error is the fixed string `"All scraping methods failed"`, not the last
failure's message — the claim's "carrying the last failure's error message"
is false as stated. -/
theorem C6_counterexample_error_not_propagated :
    (scrapePage jinaFailBoom jinaFailBoom fetchTryNever true false 0
        "https://e.com/a").1.success = false ∧
    (scrapePage jinaFailBoom jinaFailBoom fetchTryNever true false 0
        "https://e.com/a").1.error = some "All scraping methods failed" ∧
    jinaFailBoom.error = some "Jina scraping failed: boom" ∧
    (some "All scraping methods failed" : Option String) ≠
      some "Jina scraping failed: boom" := by
  decide

theorem C6_strategy_chain_amended_witness :
    scrapePage (c7Scrape "u") jinaFailBoom fetchTryNever true false 3 "u" =
      (c7Scrape "u", [Ev.jina]) ∧
    scrapePage jinaFailBoom (c7Scrape "u") fetchTryNever true true 3 "u" =
      (c7Scrape "u", (if true then [Ev.jina] else []) ++ [Ev.browser]) ∧
    (scrapePage jinaFailBoom jinaFailBoom
        (fun n => if n = 1 then Except.ok ("T", "M")
                  else Except.error "HTTP 500") false false 3 "u").1 =
      mkFetchOk "u" "T" "M" ∧
    scrapePage jinaFailBoom jinaFailBoom fetchTryNever false false 2 "u" =
      (mkFetchFail "u" (some "HTTP 503: Service Unavailable"),
       stratPrefixEvs false false ++ specFallbackTrace 2) :=
  ⟨C6_strategy_chain_amended.1 (c7Scrape "u") jinaFailBoom fetchTryNever
     false 3 "u" rfl,
   C6_strategy_chain_amended.2.1 jinaFailBoom (c7Scrape "u") fetchTryNever
     true 3 "u" (Or.inr rfl) rfl,
   C6_strategy_chain_amended.2.2.1 jinaFailBoom jinaFailBoom
     (fun n => if n = 1 then Except.ok ("T", "M")
               else Except.error "HTTP 500") false false 3 "u" "T" "M" 1
     (fun _ => "HTTP 500") (Or.inl rfl) (Or.inl rfl) (by omega) rfl
     (by intro n hn
         have hn0 : n = 0 := by omega
         subst hn0
         rfl),
   C6_strategy_chain_amended.2.2.2 jinaFailBoom jinaFailBoom fetchTryNever
     false false 2 "u" (fun _ => "HTTP 503: Service Unavailable")
     (Or.inl rfl) (Or.inl rfl) (by omega) (fun n _ => rfl)⟩

/-! ## Claim C9 — normalizer whitespace law -/

theorem hasTriple_cons_ne (c : Char) (l : List Char) (hc : ¬(c = '\n')) :
    hasTriple (c :: l) = hasTriple l := by
  cases l with
  | nil => rfl
  | cons b t =>
    cases t with
    | nil => rfl
    | cons d r => simp [hasTriple, hc]

theorem hasTriple_cons_true (c : Char) (l : List Char)
    (h : hasTriple l = true) : hasTriple (c :: l) = true := by
  cases l with
  | nil => simp [hasTriple] at h
  | cons b t =>
    cases t with
    | nil => simp [hasTriple] at h
    | cons d r => simp [hasTriple, h]

theorem hasTriple_eq_true_iff (l : List Char) :
    hasTriple l = true ↔
      ∃ x y, l = x ++ '\n' :: '\n' :: '\n' :: y := by
  constructor
  · induction l with
    | nil => intro h; simp [hasTriple] at h
    | cons a t ih =>
      intro h
      cases t with
      | nil => simp [hasTriple] at h
      | cons b t2 =>
        cases t2 with
        | nil => simp [hasTriple] at h
        | cons c r =>
          rw [hasTriple, Bool.or_eq_true] at h
          rcases h with hhead | htail
          · simp only [Bool.and_eq_true, beq_iff_eq] at hhead
            obtain ⟨⟨ha, hb⟩, hc⟩ := hhead
            exact ⟨[], r, by simp [ha, hb, hc]⟩
          · obtain ⟨x, y, hxy⟩ := ih htail
            exact ⟨a :: x, y, by simp [hxy]⟩
  · rintro ⟨x, y, rfl⟩
    induction x with
    | nil => simp [hasTriple]
    | cons a x' ih => exact hasTriple_cons_true a _ ih

theorem hasTriple_false_of_append {u v m : List Char}
    (h : hasTriple (u ++ m ++ v) = false) : hasTriple m = false := by
  by_contra hm
  have hm' : hasTriple m = true := by
    cases hmb : hasTriple m with
    | false => exact absurd hmb hm
    | true => rfl
  obtain ⟨x, y, rfl⟩ := (hasTriple_eq_true_iff m).mp hm'
  have htr : hasTriple (u ++ (x ++ '\n' :: '\n' :: '\n' :: y) ++ v) = true :=
    (hasTriple_eq_true_iff _).mpr ⟨u ++ x, y ++ v, by simp⟩
  rw [h] at htr
  exact Bool.noConfusion htr

theorem hasTriple_nl_cons (c : Char) (l : List Char) (hc : ¬(c = '\n')) :
    hasTriple ('\n' :: c :: l) = hasTriple (c :: l) := by
  cases l with
  | nil => rfl
  | cons d r => simp [hasTriple, hc]

theorem hasTriple_nl_nl_cons (c : Char) (l : List Char) (hc : ¬(c = '\n')) :
    hasTriple ('\n' :: '\n' :: c :: l) = hasTriple (c :: l) := by
  rw [hasTriple, hasTriple_nl_cons c l hc]
  simp [hc]

theorem hasTriple_replicate_le_two (j : Nat) (hj : j ≤ 2) :
    hasTriple (List.replicate j '\n') = false := by
  have hcase : j = 0 ∨ j = 1 ∨ j = 2 := by omega
  rcases hcase with h | h | h <;> subst h <;> decide

theorem hasTriple_replicate_cons (j : Nat) (hj : j ≤ 2) (c : Char)
    (l : List Char) (hc : ¬(c = '\n')) :
    hasTriple (List.replicate j '\n' ++ c :: l) = hasTriple (c :: l) := by
  have hcase : j = 0 ∨ j = 1 ∨ j = 2 := by omega
  rcases hcase with h | h | h <;> subst h
  · rfl
  · simpa [List.replicate] using hasTriple_nl_cons c l hc
  · simpa [List.replicate] using hasTriple_nl_nl_cons c l hc

theorem emitNL_le_two (p : Nat) : (if 3 ≤ p then 2 else p) ≤ 2 := by
  by_cases hp : 3 ≤ p
  · rw [if_pos hp]
  · rw [if_neg hp]
    omega

/-- The collapsed output never contains three consecutive newlines. -/
theorem hasTriple_collapseNLAux :
    ∀ (l : List Char) (p : Nat), hasTriple (collapseNLAux p l) = false := by
  intro l
  induction l with
  | nil =>
    intro p
    simp only [collapseNLAux, emitNL]
    exact hasTriple_replicate_le_two _ (emitNL_le_two p)
  | cons c t ih =>
    intro p
    by_cases hc : c = '\n'
    · subst hc
      simp only [collapseNLAux, if_pos rfl]
      exact ih (p + 1)
    · simp only [collapseNLAux, if_neg hc, emitNL]
      rw [hasTriple_replicate_cons _ (emitNL_le_two p) c _ hc,
        hasTriple_cons_ne c _ hc]
      exact ih 0

/-- `trim` removes a whitespace prefix and suffix: the trimmed text occurs
inside the original. -/
theorem trimChars_eq_prefix (l : List Char) :
    ∃ w, l.dropWhile isJsWS = trimChars l ++ w := by
  refine ⟨((l.dropWhile isJsWS).reverse.takeWhile isJsWS).reverse, ?_⟩
  conv_lhs => rw [← List.reverse_reverse (l.dropWhile isJsWS)]
  conv_lhs =>
    rw [← List.takeWhile_append_dropWhile (p := isJsWS)
      (l := (l.dropWhile isJsWS).reverse)]
  rw [List.reverse_append]
  rfl

theorem trimChars_decomp (l : List Char) :
    ∃ u v, l = u ++ trimChars l ++ v := by
  obtain ⟨w, hw⟩ := trimChars_eq_prefix l
  refine ⟨l.takeWhile isJsWS, w, ?_⟩
  conv_lhs => rw [← List.takeWhile_append_dropWhile (p := isJsWS) (l := l)]
  rw [hw, List.append_assoc]

theorem hasTriple_trimChars (l : List Char) (h : hasTriple l = false) :
    hasTriple (trimChars l) = false := by
  obtain ⟨u, v, hl⟩ := trimChars_decomp l
  exact hasTriple_false_of_append (m := trimChars l) (by rw [← hl]; exact h)

theorem dropWhile_head_false (p : Char → Bool) :
    ∀ (l : List Char) (c : Char),
      (l.dropWhile p).head? = some c → p c = false := by
  intro l
  induction l with
  | nil => intro c h; simp at h
  | cons a t ih =>
    intro c h
    by_cases hpa : p a
    · rw [List.dropWhile_cons, if_pos hpa] at h
      exact ih c h
    · rw [List.dropWhile_cons, if_neg hpa] at h
      simp only [List.head?_cons, Option.some_inj] at h
      subst h
      exact Bool.eq_false_iff.mpr hpa

theorem isTrimmedChars_trimChars (l : List Char) :
    isTrimmedChars (trimChars l) = true := by
  rw [isTrimmedChars, Bool.and_eq_true]
  constructor
  · cases htl : (trimChars l).head? with
    | none => rfl
    | some c =>
      obtain ⟨w, hw⟩ := trimChars_eq_prefix l
      have hd : (l.dropWhile isJsWS).head? = some c := by
        rw [hw]
        cases htc : trimChars l with
        | nil => rw [htc] at htl; simp at htl
        | cons x xs =>
          rw [htc] at htl
          simp only [List.head?_cons, Option.some_inj] at htl
          subst htl
          simp
      have hpc := dropWhile_head_false isJsWS l c hd
      simp [hpc]
  · cases htl : (trimChars l).getLast? with
    | none => rfl
    | some c =>
      have hrev : ((l.dropWhile isJsWS).reverse.dropWhile isJsWS).head? =
          some c := by
        have : (trimChars l).getLast? =
            ((l.dropWhile isJsWS).reverse.dropWhile isJsWS).head? := by
          rw [trimChars, List.getLast?_reverse]
        rw [← this, htl]
      have hpc := dropWhile_head_false isJsWS _ c hrev
      simp [hpc]

theorem collapseNLAux_cons (p : Nat) (c : Char) (t : List Char) :
    collapseNLAux p (c :: t) =
      if c = '\n' then collapseNLAux (p + 1) t
      else emitNL p ++ (c :: collapseNLAux 0 t) := rfl

theorem collapseNLAux_append :
    ∀ (x : List Char) (p : Nat) (z : List Char),
      x.getLast? ≠ some '\n' → x ≠ [] →
      collapseNLAux p (x ++ z) = collapseNLAux p x ++ collapseNLAux 0 z := by
  intro x
  induction x with
  | nil => intro p z _ hne; exact absurd rfl hne
  | cons c t ih =>
    intro p z hlast _
    cases t with
    | nil =>
      have hc : ¬(c = '\n') := fun hcEq => hlast (by simp [hcEq])
      have hstep : ([c] : List Char) ++ z = c :: z := rfl
      rw [hstep, collapseNLAux_cons, if_neg hc, collapseNLAux_cons,
        if_neg hc]
      simp [collapseNLAux, emitNL]
    | cons d r =>
      have hlast' : (d :: r).getLast? ≠ some '\n' := by
        rw [List.getLast?_cons_cons] at hlast
        exact hlast
      have hstep : (c :: d :: r) ++ z = c :: ((d :: r) ++ z) := rfl
      by_cases hc : c = '\n'
      · subst hc
        rw [hstep, collapseNLAux_cons, if_pos rfl, collapseNLAux_cons,
          if_pos rfl]
        exact ih (p + 1) z hlast' (by simp)
      · rw [hstep]
        conv_rhs => rw [collapseNLAux_cons, if_neg hc]
        rw [collapseNLAux_cons, if_neg hc, ih 0 z hlast' (by simp)]
        simp

theorem collapseNLAux_replicate (p k : Nat) (y : List Char) :
    collapseNLAux p (List.replicate k '\n' ++ y) =
      collapseNLAux (p + k) y := by
  induction k generalizing p with
  | zero => simp
  | succ k ih =>
    rw [List.replicate_succ, List.cons_append, collapseNLAux_cons,
      if_pos rfl, ih (p + 1)]
    congr 1
    omega

/-- A maximal interior run of three or more newlines collapses to exactly
two. -/
theorem collapseNL_run (x y : List Char) (k : Nat) (hx : x ≠ [])
    (hxl : x.getLast? ≠ some '\n') (hy : y.head? ≠ some '\n') (hk : 3 ≤ k) :
    collapseNL (x ++ List.replicate k '\n' ++ y) =
      collapseNL x ++ '\n' :: '\n' :: collapseNL y := by
  unfold collapseNL
  rw [List.append_assoc, collapseNLAux_append x 0 _ hxl hx]
  congr 1
  rw [collapseNLAux_replicate 0 k y]
  have h0k : 0 + k = k := by omega
  rw [h0k]
  cases y with
  | nil => simp [collapseNLAux, emitNL, if_pos hk]
  | cons c cs =>
    have hc : ¬(c = '\n') := fun hcEq => hy (by simp [hcEq])
    simp [collapseNLAux, if_neg hc, emitNL, if_pos hk]

/-- C9: the whitespace cleanup of `htmlToMarkdown` — for EVERY converted
text (and metadata header), the output never contains three consecutive
newline characters (never more than one blank line), is trimmed at both
ends, and every interior maximal run of three or more newlines is collapsed
to exactly two. -/
theorem C9_normalizer_whitespace :
    (∀ (turndownOut metaSection : List Char) (im : Bool),
       hasTriple (htmlToMarkdownClean turndownOut metaSection im) = false) ∧
    (∀ (turndownOut metaSection : List Char) (im : Bool),
       isTrimmedChars (htmlToMarkdownClean turndownOut metaSection im) =
         true) ∧
    (∀ (x y : List Char) (k : Nat), x ≠ [] → x.getLast? ≠ some '\n' →
       y.head? ≠ some '\n' → 3 ≤ k →
       collapseNL (x ++ List.replicate k '\n' ++ y) =
         collapseNL x ++ '\n' :: '\n' :: collapseNL y) := by
  refine ⟨?_, ?_, collapseNL_run⟩
  · intro t m im
    unfold htmlToMarkdownClean
    apply hasTriple_trimChars
    exact hasTriple_collapseNLAux _ 0
  · intro t m im
    exact isTrimmedChars_trimChars _

theorem C9_normalizer_whitespace_witness :
    collapseNL (['a'] ++ List.replicate 3 '\n' ++ ['b']) =
      collapseNL ['a'] ++ '\n' :: '\n' :: collapseNL ['b'] :=
  C9_normalizer_whitespace.2.2 ['a'] ['b'] 3 (by decide) (by decide)
    (by decide) (by decide)

/-! ## Claim C7 — end-to-end pipeline scenario -/

set_option maxRecDepth 8000 in
/-- C7: on a fresh store, a sitemap yielding the three URLs `a`, `b`, `c`
run with `maxUrls = 2` indexes exactly 2 PageRecords (`indexedUrls = 2`, two
`url:` keys in the store), the scrape stage attempts exactly those two URLs
`["a", "b"]`, and the AI stage attempts exactly those two with
`summary.total = 2` — for EVERY completion backend `ai`. -/
theorem C7_pipeline_maxurls_scenario (ai : String → String) :
    (pipelineRun c7Fetch idHash (fun _ => "P") (fun _ => "ex.com") c7Scrape
        ai 2 0 "https://ex.com/sitemap.xml"
        emptyStore).result.stages.indexing.indexedUrls = 2 ∧
    (pipelineRun c7Fetch idHash (fun _ => "P") (fun _ => "ex.com") c7Scrape
        ai 2 0 "https://ex.com/sitemap.xml"
        emptyStore).result.stages.indexing.totalUrls = 2 ∧
    (pipelineRun c7Fetch idHash (fun _ => "P") (fun _ => "ex.com") c7Scrape
        ai 2 0 "https://ex.com/sitemap.xml"
        emptyStore).store.kvUrls.length = 2 ∧
    (pipelineRun c7Fetch idHash (fun _ => "P") (fun _ => "ex.com") c7Scrape
        ai 2 0 "https://ex.com/sitemap.xml" emptyStore).scrapedUrls =
      ["a", "b"] ∧
    (pipelineRun c7Fetch idHash (fun _ => "P") (fun _ => "ex.com") c7Scrape
        ai 2 0 "https://ex.com/sitemap.xml"
        emptyStore).result.stages.scraping.attempted = 2 ∧
    (pipelineRun c7Fetch idHash (fun _ => "P") (fun _ => "ex.com") c7Scrape
        ai 2 0 "https://ex.com/sitemap.xml" emptyStore).aiUrls =
      ["a", "b"] ∧
    (pipelineRun c7Fetch idHash (fun _ => "P") (fun _ => "ex.com") c7Scrape
        ai 2 0 "https://ex.com/sitemap.xml"
        emptyStore).result.stages.aiProcessing.attempted = 2 :=
  ⟨rfl, rfl, rfl, rfl, rfl, rfl, rfl⟩

end LangCachy
